import Mathlib

/-!
SM5714 multi-function core driver: register transport and bring-up.

A shallow embedding of `drivers/mfd/sm/sm5714/sm5714_core.c`.

The bus, the mutex, the log, the telemetry counter and the kernel allocators
are external to the file; they are represented by an explicit `World` that is
threaded through every function.  The result of the `n`-th bus transaction is
given by an arbitrary function `bus : Nat → CInt`, so a statement quantified
over `World` holds for every sequence of bus outcomes.
-/

namespace SM5714

/-- A value of the C type `int` (32 bit, two's complement). -/
abbrev CInt : Type := { x : Int // -2147483648 ≤ x ∧ x ≤ 2147483647 }

/-- Linux errno values used by the driver. -/
def ENOMEM : Int := 12
/-- Errno: no such device. -/
def ENODEV : Int := 19
/-- Errno: invalid argument. -/
def EINVAL : Int := 22

/-- The three `struct i2c_client` handles kept in `struct sm5714_dev`. -/
inductive Client
  | charger
  | fuelgauge
  | muic
  deriving DecidableEq, Repr

/-- The SMBus primitives called by the transport, with their arguments. -/
inductive Xfer
  | read_byte_data (reg : Nat)
  | read_i2c_block_data (reg : Nat) (count : Int)
  | read_word_data (reg : Nat)
  | write_byte_data (reg : Nat) (value : Nat)
  | write_i2c_block_data (reg : Nat) (count : Int) (buf : List Nat)
  | write_word_data (reg : Nat) (value : Nat)
  deriving DecidableEq, Repr

/-- Kernel objects acquired by `sm5714_i2c_probe`. -/
inductive Resource
  | sm5714_dev
  | irq_ws
  | irq_descs
  | i2c_lock
  | fuelgauge
  | muic
  | irq_chip
  | mfd_devs
  deriving DecidableEq, Repr

/-- External kernel calls made by `sm5714_i2c_probe`, other than bus traffic. -/
inductive Call
  | kzalloc
  | devm_kzalloc
  | wakeup_source_register
  | irq_alloc_descs
  | mutex_init
  | i2c_new_dummy (c : Client)
  | sm5714_irq_init
  | mfd_add_devices
  | device_init_wakeup
  | mfd_remove_devices
  | sm5714_irq_exit
  | i2c_unregister_device (c : Client)
  | mutex_destroy
  | kfree
  deriving DecidableEq, Repr

/-- Observable actions, in program order. -/
inductive Event
  | mutex_lock
  | mutex_unlock
  | smbus (c : Client) (x : Xfer) (ret : Int)
  | sm5714_info (ret : Int)
  | inc_hw_param
  | call (f : Call)
  deriving DecidableEq, Repr

/-- Everything outside the driver that its functions read or change. -/
structure World where
  /-- Status returned by the `n`-th bus transaction. -/
  bus : Nat → CInt
  /-- Number of bus transactions issued so far. -/
  issued : Nat
  /-- Actions performed so far, oldest first. -/
  trace : List Event
  /-- State of `sm5714->i2c_lock`. -/
  locked : Bool
  /-- Whether `CONFIG_USB_HW_PARAM` is defined. -/
  hw_param : Bool
  /-- Whether `get_otg_notify()` returns a non-NULL handle. -/
  o_notify : Bool
  /-- The `USB_CCIC_I2C_ERROR_COUNT` hardware-error counter. -/
  hw_err_count : Nat
  /-- Kernel objects currently held by the driver. -/
  held : List Resource

/-- Append one action to the trace. -/
def emit (e : Event) (w : World) : World :=
  { w with trace := w.trace ++ [e] }

/-- The call `mutex_lock(&sm5714->i2c_lock)`: takes a free lock; on a lock that is already
held the caller blocks, which a sequential run never leaves (`none`). -/
def mutex_lock (w : World) : Option World :=
  if w.locked then none else some { emit Event.mutex_lock w with locked := true }

/-- The call `mutex_unlock(&sm5714->i2c_lock)`. -/
def mutex_unlock (w : World) : World :=
  { emit Event.mutex_unlock w with locked := false }

/-- One SMBus transaction: consumes the next bus outcome and records it. -/
def i2c_smbus (c : Client) (x : Xfer) (w : World) : Int × World :=
  ((w.bus w.issued).val,
    { emit (Event.smbus c x (w.bus w.issued).val) w with issued := w.issued + 1 })

/-- The diagnostic line `sm5714_info("%s:%s reg(0x%x), ret(%d)\n", ...)`. -/
def sm5714_info (ret : Int) (w : World) : World :=
  emit (Event.sm5714_info ret) w

/-- The loop `for (i = 0; i < retry; i++) { ret = xfer; if (ret >= 0) break; sm5714_info(..); }`
with `n` iterations left and `ret` the current value of the variable `ret`. -/
def retry_loop (c : Client) (x : Xfer) : Nat → Int → World → Int × World
  | 0, ret, w => (ret, w)
  | n + 1, _, w =>
    if 0 ≤ (i2c_smbus c x w).1 then i2c_smbus c x w
    else retry_loop c x n (i2c_smbus c x w).1 (sm5714_info (i2c_smbus c x w).1 (i2c_smbus c x w).2)

/-- The local `int retry = 3`. -/
def retry : Nat := 3

/-- The block `#if defined(CONFIG_USB_HW_PARAM) if (o_notify) inc_hw_param(...); #endif`. -/
def hw_param_error (w : World) : World :=
  if w.hw_param && w.o_notify then
    { emit Event.inc_hw_param w with hw_err_count := w.hw_err_count + 1 }
  else w

/-- The part shared by the six single-transaction operations: lock, retry loop, unlock, and
the telemetry increment when `ret < 0`.  The variable `ret` is uninitialised before the loop;
its first value is never read because `retry = 3`. -/
def locked_retry (c : Client) (x : Xfer) (w : World) : Option (Int × World) :=
  match mutex_lock w with
  | none => none
  | some w1 =>
    let r := retry_loop c x retry 0 w1
    let w2 := mutex_unlock r.2
    some (r.1, if r.1 < 0 then hw_param_error w2 else w2)

/-- Function `sm5714_read_reg`: returns the status and the new value of `*dest`. -/
def sm5714_read_reg (c : Client) (reg : Nat) (dest : Nat) (w : World) :
    Option (Int × Nat × World) :=
  match locked_retry c (Xfer.read_byte_data reg) w with
  | none => none
  | some r => if r.1 < 0 then some (r.1, dest, r.2) else some (0, (r.1 % 256).toNat, r.2)

/-- Function `sm5714_bulk_read`; the contents of `buf` are not tracked. -/
def sm5714_bulk_read (c : Client) (reg : Nat) (count : Int) (w : World) : Option (Int × World) :=
  match locked_retry c (Xfer.read_i2c_block_data reg count) w with
  | none => none
  | some r => if r.1 < 0 then some (r.1, r.2) else some (0, r.2)

/-- Function `sm5714_read_word`. -/
def sm5714_read_word (c : Client) (reg : Nat) (w : World) : Option (Int × World) :=
  locked_retry c (Xfer.read_word_data reg) w

/-- Function `sm5714_write_reg`. -/
def sm5714_write_reg (c : Client) (reg : Nat) (value : Nat) (w : World) : Option (Int × World) :=
  locked_retry c (Xfer.write_byte_data reg value) w

/-- Function `sm5714_bulk_write`. -/
def sm5714_bulk_write (c : Client) (reg : Nat) (count : Int) (buf : List Nat) (w : World) :
    Option (Int × World) :=
  match locked_retry c (Xfer.write_i2c_block_data reg count buf) w with
  | none => none
  | some r => if r.1 < 0 then some (r.1, r.2) else some (0, r.2)

/-- Function `sm5714_write_word`. -/
def sm5714_write_word (c : Client) (reg : Nat) (value : Nat) (w : World) : Option (Int × World) :=
  match locked_retry c (Xfer.write_word_data reg value) w with
  | none => none
  | some r => if r.1 < 0 then some (r.1, r.2) else some (0, r.2)

/-- The expression `(val & mask) | (old_val & (~mask))` stored into `u8 new_val`: the operands
are promoted to `int`, so `~mask` is the 32-bit pattern `0xFFFFFFFF - mask`, and the store
keeps the low eight bits. -/
def new_val (val mask old_val : Nat) : Nat :=
  ((val &&& mask) ||| (old_val &&& (4294967295 - mask))) % 256

/-- Function `sm5714_update_reg`. -/
def sm5714_update_reg (c : Client) (reg : Nat) (val mask : Nat) (w : World) :
    Option (Int × World) :=
  match mutex_lock w with
  | none => none
  | some w1 =>
    let r := retry_loop c (Xfer.read_byte_data reg) retry 0 w1
    if 0 ≤ r.1 then
      let old_val := (r.1 % 256).toNat
      let r2 := retry_loop c (Xfer.write_byte_data reg (new_val val mask old_val)) retry r.1 r.2
      some (r2.1, mutex_unlock r2.2)
    else
      some (r.1, mutex_unlock (hw_param_error r.2))

/-- The seven transport operations with their arguments. -/
inductive Op
  | read_reg (c : Client) (reg : Nat) (dest : Nat)
  | bulk_read (c : Client) (reg : Nat) (count : Int)
  | read_word (c : Client) (reg : Nat)
  | write_reg (c : Client) (reg : Nat) (value : Nat)
  | bulk_write (c : Client) (reg : Nat) (count : Int) (buf : List Nat)
  | write_word (c : Client) (reg : Nat) (value : Nat)
  | update_reg (c : Client) (reg : Nat) (val : Nat) (mask : Nat)

/-- Run a transport operation; the result is its return value and the world it leaves. -/
def Op.run : Op → World → Option (Int × World)
  | Op.read_reg c reg dest, w => (sm5714_read_reg c reg dest w).map fun r => (r.1, r.2.2)
  | Op.bulk_read c reg count, w => sm5714_bulk_read c reg count w
  | Op.read_word c reg, w => sm5714_read_word c reg w
  | Op.write_reg c reg value, w => sm5714_write_reg c reg value w
  | Op.bulk_write c reg count buf, w => sm5714_bulk_write c reg count buf w
  | Op.write_word c reg value, w => sm5714_write_word c reg value w
  | Op.update_reg c reg val mask, w => sm5714_update_reg c reg val mask w

/-- The six operations that consist of a single retried transaction. -/
def Op.single : Op → Bool
  | Op.update_reg _ _ _ _ => false
  | _ => true

/-- The bus handle and SMBus primitive an operation issues first. -/
def Op.xfer : Op → Client × Xfer
  | Op.read_reg c reg _ => (c, Xfer.read_byte_data reg)
  | Op.bulk_read c reg count => (c, Xfer.read_i2c_block_data reg count)
  | Op.read_word c reg => (c, Xfer.read_word_data reg)
  | Op.write_reg c reg value => (c, Xfer.write_byte_data reg value)
  | Op.bulk_write c reg count buf => (c, Xfer.write_i2c_block_data reg count buf)
  | Op.write_word c reg value => (c, Xfer.write_word_data reg value)
  | Op.update_reg c reg _ _ => (c, Xfer.read_byte_data reg)

/-- The update rule in the words of the specification, on bytes:
`(value & mask) | (old & ~mask)` with `~mask` the 8-bit complement. -/
def spec_update_byte (value mask old : Nat) : Nat :=
  (value &&& mask) ||| (old &&& (255 - mask))

/-- Whether a bus transaction is a byte write. -/
def is_write_byte : Client × Xfer × Int → Bool
  | (_, Xfer.write_byte_data _ _, _) => true
  | _ => false

/-- A bus given by a finite list of outcomes, followed by `-5` (`-EIO`) forever. -/
def bus_of (l : List CInt) : Nat → CInt :=
  fun n => l.getD n ⟨-5, by decide⟩

/-- A fresh world driven by the given bus outcomes, with telemetry enabled. -/
def world_of (l : List CInt) : World :=
  { bus := bus_of l, issued := 0, trace := [], locked := false, hw_param := true,
    o_notify := true, hw_err_count := 0, held := [] }

/-! ## Bring-up -/

/-- Register addresses defined in `sm5714-private.h`, which is not part of this file. -/
structure Regs where
  /-- Constant `SM5714_CHG_REG_DEVICEID`. -/
  chg_deviceid : Nat
  /-- Constant `SM5714_FG_REG_DEVICE_ID`. -/
  fg_device_id : Nat
  /-- Constant `SM5714_MUIC_REG_DeviceID`. -/
  muic_deviceid : Nat

/-- Outcomes of the external calls made by `sm5714_i2c_probe`. -/
structure ProbeEnv where
  /-- Whether `kzalloc(sizeof(struct sm5714_dev))` returns non-NULL. -/
  kzalloc_ok : Bool
  /-- Whether `i2c->dev.of_node` is non-NULL. -/
  of_node : Bool
  /-- Whether `devm_kzalloc(sizeof(struct sm5714_platform_data))` returns non-NULL. -/
  devm_kzalloc_ok : Bool
  /-- Whether `i2c->dev.platform_data` is non-NULL on entry. -/
  platform_data : Bool
  /-- Return value of `irq_alloc_descs`. -/
  irq_alloc_descs : CInt
  /-- Return value of `sm5714_irq_init`. -/
  sm5714_irq_init : CInt
  /-- Return value of `mfd_add_devices`. -/
  mfd_add_devices : CInt

/-- The identity fields of `struct sm5714_dev`. -/
structure Dev where
  /-- Field `vender_id`. -/
  vender_id : Nat
  /-- Field `pmic_rev`. -/
  pmic_rev : Nat

/-- What `sm5714_i2c_probe` leaves behind: return value, identity fields, world. -/
structure ProbeResult where
  /-- The value returned by probe. -/
  ret : Int
  /-- The identity fields as last written. -/
  dev : Dev
  /-- The world after probe. -/
  w : World

/-- A kernel call that acquires nothing. -/
def call (f : Call) (w : World) : World :=
  emit (Event.call f) w

/-- A kernel call that hands a new object to the driver. -/
def acquire (r : Resource) (f : Call) (w : World) : World :=
  { emit (Event.call f) w with held := w.held ++ [r] }

/-- A kernel call that gives an object back. -/
def release (r : Resource) (f : Call) (w : World) : World :=
  { emit (Event.call f) w with held := w.held.erase r }

/-- The call `mutex_init(&sm5714->i2c_lock)`. -/
def mutex_init (w : World) : World :=
  { acquire Resource.i2c_lock Call.mutex_init w with locked := false }

/-- Function `of_sm5714_dt` (the `CONFIG_OF` variant): `-EINVAL` without a device node. -/
def of_sm5714_dt (of_node : Bool) : Int :=
  if of_node then 0 else -EINVAL

/-- Label `err`: `kfree(sm5714); return ret;`. -/
def err (ret : Int) (dev : Dev) (w : World) : ProbeResult :=
  ⟨ret, dev, release Resource.sm5714_dev Call.kfree w⟩

/-- Label `err_w_lock`: `mutex_destroy(&sm5714->i2c_lock);` then `err`. -/
def err_w_lock (ret : Int) (dev : Dev) (w : World) : ProbeResult :=
  err ret dev (release Resource.i2c_lock Call.mutex_destroy w)

/-- Label `err_irq_init`: unregister the fuel-gauge and mux handles, then `err_w_lock`. -/
def err_irq_init (ret : Int) (dev : Dev) (w : World) : ProbeResult :=
  err_w_lock ret dev
    (release Resource.muic (Call.i2c_unregister_device Client.muic)
      (release Resource.fuelgauge (Call.i2c_unregister_device Client.fuelgauge) w))

/-- Label `err_mfd`: `mfd_remove_devices`, `sm5714_irq_exit`, then `err_irq_init`. -/
def err_mfd (ret : Int) (dev : Dev) (w : World) : ProbeResult :=
  err_irq_init ret dev
    (release Resource.irq_chip Call.sm5714_irq_exit
      (release Resource.mfd_devs Call.mfd_remove_devices w))

/-- Lines 396-408 of `sm5714_i2c_probe`: interrupt subsystem, dependent devices, wake-up. -/
def probe_finish (env : ProbeEnv) (dev : Dev) (w : World) : ProbeResult :=
  if env.sm5714_irq_init.val < 0 then
    err_irq_init env.sm5714_irq_init.val dev (call Call.sm5714_irq_init w)
  else if env.mfd_add_devices.val < 0 then
    err_mfd env.mfd_add_devices.val dev
      (call Call.mfd_add_devices (acquire Resource.irq_chip Call.sm5714_irq_init w))
  else
    ⟨env.mfd_add_devices.val, dev,
      call Call.device_init_wakeup
        (acquire Resource.mfd_devs Call.mfd_add_devices
          (acquire Resource.irq_chip Call.sm5714_irq_init w))⟩

/-- Lines 382-394 of `sm5714_i2c_probe`: mux handle and identity check; `temp` is the value
of the variable `temp` left by the primary read. -/
def probe_muic (regs : Regs) (env : ProbeEnv) (dev : Dev) (temp : Nat) (w : World) :
    Option ProbeResult :=
  match sm5714_read_reg Client.muic regs.muic_deviceid temp
      (acquire Resource.muic (Call.i2c_new_dummy Client.muic) w) with
  | none => none
  | some r =>
    if r.1 < 0 ∨ r.2.1 ≠ 1 then some (err_w_lock (-ENODEV) dev r.2.2)
    else some (probe_finish env dev r.2.2)

/-- Lines 369-381 of `sm5714_i2c_probe`: fuel-gauge handle and identity check; the test
`(unsigned int)ret > 0xFF` compares `ret` modulo `2^32`. -/
def probe_fuelgauge (regs : Regs) (env : ProbeEnv) (dev : Dev) (temp : Nat) (w : World) :
    Option ProbeResult :=
  match sm5714_read_word Client.fuelgauge regs.fg_device_id
      (acquire Resource.fuelgauge (Call.i2c_new_dummy Client.fuelgauge) w) with
  | none => none
  | some r =>
    if r.1 % 4294967296 > 255 then some (err_w_lock (-ENODEV) dev r.2)
    else probe_muic regs env dev temp r.2

/-- Lines 357-368 of `sm5714_i2c_probe`: primary identity read and check, with `u8 temp = 0`
and the zero-initialised identity fields. -/
def probe_primary (regs : Regs) (env : ProbeEnv) (w : World) : Option ProbeResult :=
  match sm5714_read_reg Client.charger regs.chg_deviceid 0 w with
  | none => none
  | some r =>
    if r.1 < 0 ∨ r.2.1 &&& 7 ≠ 1 then some (err_w_lock (-ENODEV) ⟨0, 0⟩ r.2.2)
    else
      probe_fuelgauge regs env ⟨r.2.1 &&& 7, (r.2.1 >>> 3) &&& 31⟩ r.2.1 r.2.2

/-- Function `sm5714_i2c_probe`.  Memory obtained with `devm_kzalloc` is owned by the device
core and is not tracked as held.  The source does not test the results of
`wakeup_source_register` and `i2c_new_dummy`; both are taken to return an object. -/
def sm5714_i2c_probe (regs : Regs) (env : ProbeEnv) (w : World) : Option ProbeResult :=
  if env.kzalloc_ok = false then some ⟨-ENOMEM, ⟨0, 0⟩, call Call.kzalloc w⟩
  else if env.of_node = true ∧ env.devm_kzalloc_ok = false then
    some (err (-ENOMEM) ⟨0, 0⟩
      (call Call.devm_kzalloc (acquire Resource.sm5714_dev Call.kzalloc w)))
  else if env.of_node = true ∧ of_sm5714_dt env.of_node < 0 then
    some (err (of_sm5714_dt env.of_node) ⟨0, 0⟩
      (call Call.devm_kzalloc (acquire Resource.sm5714_dev Call.kzalloc w)))
  else if env.of_node = false ∧ env.platform_data = false then
    some (err (-EINVAL) ⟨0, 0⟩
      (acquire Resource.irq_ws Call.wakeup_source_register
        (acquire Resource.sm5714_dev Call.kzalloc w)))
  else if env.irq_alloc_descs.val < 0 then
    some (err (-EINVAL) ⟨0, 0⟩
      (call Call.irq_alloc_descs
        (acquire Resource.irq_ws Call.wakeup_source_register
          (if env.of_node = true then
            call Call.devm_kzalloc (acquire Resource.sm5714_dev Call.kzalloc w)
          else acquire Resource.sm5714_dev Call.kzalloc w))))
  else
    probe_primary regs env
      (mutex_init
        (acquire Resource.irq_descs Call.irq_alloc_descs
          (acquire Resource.irq_ws Call.wakeup_source_register
            (if env.of_node = true then
              call Call.devm_kzalloc (acquire Resource.sm5714_dev Call.kzalloc w)
            else acquire Resource.sm5714_dev Call.kzalloc w))))

/-! ## Closed forms of the retry loop -/

/-- Value of `ret` after three attempts that start at transaction `n`. -/
def retry_ret (bus : Nat → CInt) (n : Nat) : Int :=
  if 0 ≤ (bus n).val then (bus n).val
  else if 0 ≤ (bus (n + 1)).val then (bus (n + 1)).val
  else (bus (n + 2)).val

/-- Number of transactions issued by three attempts that start at transaction `n`. -/
def retry_count (bus : Nat → CInt) (n : Nat) : Nat :=
  if 0 ≤ (bus n).val then 1
  else if 0 ≤ (bus (n + 1)).val then 2
  else 3

/-- Actions performed by three attempts that start at transaction `n`. -/
def retry_events (c : Client) (x : Xfer) (bus : Nat → CInt) (n : Nat) : List Event :=
  if 0 ≤ (bus n).val then [Event.smbus c x (bus n).val]
  else if 0 ≤ (bus (n + 1)).val then
    [Event.smbus c x (bus n).val, Event.sm5714_info (bus n).val,
      Event.smbus c x (bus (n + 1)).val]
  else if 0 ≤ (bus (n + 2)).val then
    [Event.smbus c x (bus n).val, Event.sm5714_info (bus n).val,
      Event.smbus c x (bus (n + 1)).val, Event.sm5714_info (bus (n + 1)).val,
      Event.smbus c x (bus (n + 2)).val]
  else
    [Event.smbus c x (bus n).val, Event.sm5714_info (bus n).val,
      Event.smbus c x (bus (n + 1)).val, Event.sm5714_info (bus (n + 1)).val,
      Event.smbus c x (bus (n + 2)).val, Event.sm5714_info (bus (n + 2)).val]

/-- The bus transactions of a trace, in order. -/
def xfers : List Event → List (Client × Xfer × Int)
  | [] => []
  | Event.smbus c x r :: es => (c, x, r) :: xfers es
  | _ :: es => xfers es

/-- The telemetry actions that follow a retried transaction ending with status `ret`. -/
def telemetry_events (ret : Int) (w : World) : List Event :=
  if ret < 0 ∧ w.hw_param = true ∧ w.o_notify = true then [Event.inc_hw_param] else []

/-- Status with which the primary identity read of probe returns. -/
def primary_ret (w : World) : Int :=
  retry_ret w.bus w.issued

/-- The primary identity byte: the low eight bits of the primary read status. -/
def primary_byte (w : World) : Nat :=
  (primary_ret w % 256).toNat

/-- Status with which the fuel-gauge word read of probe returns, when it is reached. -/
def fg_ret (w : World) : Int :=
  retry_ret w.bus (w.issued + retry_count w.bus w.issued)

/-- Status with which the mux identity read of probe returns, when it is reached. -/
def muic_ret (w : World) : Int :=
  retry_ret w.bus (w.issued + retry_count w.bus w.issued +
    retry_count w.bus (w.issued + retry_count w.bus w.issued))

/-- The actions a probe run added to the trace of the world it started in. -/
def new_events (w : World) (res : ProbeResult) : List Event :=
  res.w.trace.drop w.trace.length

/-- The world in which probe reaches its primary identity read (line 357), when allocation,
configuration and descriptor reservation have succeeded. -/
def pre_identity (env : ProbeEnv) (w : World) : World :=
  mutex_init
    (acquire Resource.irq_descs Call.irq_alloc_descs
      (acquire Resource.irq_ws Call.wakeup_source_register
        (if env.of_node = true then
          call Call.devm_kzalloc (acquire Resource.sm5714_dev Call.kzalloc w)
        else acquire Resource.sm5714_dev Call.kzalloc w)))

/-- Whether allocation, configuration and descriptor reservation succeed. -/
def reaches_identity (env : ProbeEnv) : Prop :=
  env.kzalloc_ok = true ∧
    (if env.of_node = true then env.devm_kzalloc_ok = true else env.platform_data = true) ∧
    0 ≤ env.irq_alloc_descs.val

/-- The kernel calls probe makes before its primary identity read. -/
def pre_calls (env : ProbeEnv) : List Event :=
  if env.of_node = true then
    [Event.call Call.kzalloc, Event.call Call.devm_kzalloc,
      Event.call Call.wakeup_source_register, Event.call Call.irq_alloc_descs,
      Event.call Call.mutex_init]
  else
    [Event.call Call.kzalloc, Event.call Call.wakeup_source_register,
      Event.call Call.irq_alloc_descs, Event.call Call.mutex_init]

/-- The kernel calls made by lines 396-422 of probe. -/
def finish_events (env : ProbeEnv) : List Event :=
  if env.sm5714_irq_init.val < 0 then
    [Event.call Call.sm5714_irq_init,
      Event.call (Call.i2c_unregister_device Client.fuelgauge),
      Event.call (Call.i2c_unregister_device Client.muic),
      Event.call Call.mutex_destroy, Event.call Call.kfree]
  else if env.mfd_add_devices.val < 0 then
    [Event.call Call.sm5714_irq_init, Event.call Call.mfd_add_devices,
      Event.call Call.mfd_remove_devices, Event.call Call.sm5714_irq_exit,
      Event.call (Call.i2c_unregister_device Client.fuelgauge),
      Event.call (Call.i2c_unregister_device Client.muic),
      Event.call Call.mutex_destroy, Event.call Call.kfree]
  else
    [Event.call Call.sm5714_irq_init, Event.call Call.mfd_add_devices,
      Event.call Call.device_init_wakeup]

/-- An environment in which every external call of probe succeeds. -/
def env_ok : ProbeEnv :=
  { kzalloc_ok := true, of_node := true, devm_kzalloc_ok := true, platform_data := false,
    irq_alloc_descs := ⟨0, by decide⟩, sm5714_irq_init := ⟨0, by decide⟩,
    mfd_add_devices := ⟨0, by decide⟩ }

/-- An environment in which `sm5714_irq_init` fails with `-EINVAL` and all else succeeds. -/
def env_irq_fail : ProbeEnv :=
  { env_ok with sm5714_irq_init := ⟨-22, by decide⟩ }

/-- Sample register addresses. -/
def regs_sample : Regs :=
  { chg_deviceid := 0, fg_device_id := 0, muic_deviceid := 0 }

/-- World left by a single retried transaction started with the lock free. -/
def after_retry (c : Client) (x : Xfer) (w : World) : World :=
  { w with
    issued := w.issued + retry_count w.bus w.issued
    trace := w.trace ++ Event.mutex_lock :: (retry_events c x w.bus w.issued ++
      Event.mutex_unlock :: telemetry_events (retry_ret w.bus w.issued) w)
    locked := false
    hw_err_count := w.hw_err_count + (telemetry_events (retry_ret w.bus w.issued) w).length }

/-! ## Transport: lemmas and theorems -/

theorem retry_loop_eq (c : Client) (x : Xfer) (r0 : Int) (w : World) :
    retry_loop c x retry r0 w =
      (retry_ret w.bus w.issued,
        { w with issued := w.issued + retry_count w.bus w.issued,
                 trace := w.trace ++ retry_events c x w.bus w.issued }) := by
  simp only [retry, retry_loop, i2c_smbus, sm5714_info, emit, retry_ret, retry_count,
    retry_events]
  by_cases h0 : 0 ≤ (w.bus w.issued).val
  · simp [h0]
  · by_cases h1 : 0 ≤ (w.bus (w.issued + 1)).val
    · simp [h0, h1]
    · by_cases h2 : 0 ≤ (w.bus (w.issued + 2)).val
      · simp [h0, h1, h2, Nat.add_assoc]
      · simp [h0, h1, h2, Nat.add_assoc]

theorem xfers_append (a b : List Event) : xfers (a ++ b) = xfers a ++ xfers b := by
  induction a with
  | nil => rfl
  | cons e es ih => cases e <;> simp [xfers, ih]

theorem locked_retry_eq (c : Client) (x : Xfer) (w : World) (h : w.locked = false) :
    locked_retry c x w =
      some (retry_ret w.bus w.issued,
        if retry_ret w.bus w.issued < 0 then
          hw_param_error
            { w with issued := w.issued + retry_count w.bus w.issued,
                     trace := w.trace ++ Event.mutex_lock ::
                       (retry_events c x w.bus w.issued ++ [Event.mutex_unlock]) }
        else
          { w with issued := w.issued + retry_count w.bus w.issued,
                   trace := w.trace ++ Event.mutex_lock ::
                     (retry_events c x w.bus w.issued ++ [Event.mutex_unlock]) }) := by
  simp [locked_retry, mutex_lock, h, retry_loop_eq, mutex_unlock, emit]

theorem update_reg_eq (c : Client) (reg val mask : Nat) (w : World) (h : w.locked = false) :
    sm5714_update_reg c reg val mask w =
      if 0 ≤ retry_ret w.bus w.issued then
        some (retry_ret w.bus (w.issued + retry_count w.bus w.issued),
          { w with
            issued := w.issued + retry_count w.bus w.issued +
              retry_count w.bus (w.issued + retry_count w.bus w.issued),
            trace := w.trace ++ Event.mutex_lock ::
              (retry_events c (Xfer.read_byte_data reg) w.bus w.issued ++
                (retry_events c
                  (Xfer.write_byte_data reg
                    (new_val val mask (retry_ret w.bus w.issued % 256).toNat))
                  w.bus (w.issued + retry_count w.bus w.issued) ++ [Event.mutex_unlock])) })
      else
        some (retry_ret w.bus w.issued,
          mutex_unlock (hw_param_error
            { w with issued := w.issued + retry_count w.bus w.issued,
                     locked := true,
                     trace := w.trace ++ Event.mutex_lock ::
                       retry_events c (Xfer.read_byte_data reg) w.bus w.issued })) := by
  by_cases h1 : 0 ≤ retry_ret w.bus w.issued
  · simp [sm5714_update_reg, mutex_lock, h, retry_loop_eq, emit, mutex_unlock, h1]
  · simp [sm5714_update_reg, mutex_lock, h, retry_loop_eq, emit, h1]

theorem locked_retry_spec (c : Client) (x : Xfer) (w : World) (h : w.locked = false) :
    ∃ w', locked_retry c x w = some (retry_ret w.bus w.issued, w') ∧
      w'.bus = w.bus ∧ w'.issued = w.issued + retry_count w.bus w.issued ∧
      w'.trace = w.trace ++ Event.mutex_lock :: (retry_events c x w.bus w.issued ++
        Event.mutex_unlock :: telemetry_events (retry_ret w.bus w.issued) w) ∧
      w'.locked = false ∧ w'.held = w.held ∧ w'.hw_param = w.hw_param ∧
      w'.o_notify = w.o_notify ∧
      w'.hw_err_count = w.hw_err_count + (telemetry_events (retry_ret w.bus w.issued) w).length := by
  rw [locked_retry_eq c x w h]
  refine ⟨_, rfl, ?_⟩
  by_cases hr : retry_ret w.bus w.issued < 0
  · by_cases ht : (w.hw_param && w.o_notify) = true
    · have ht2 : w.hw_param = true ∧ w.o_notify = true := by simpa using ht
      simp [hr, hw_param_error, ht2.1, ht2.2, emit, telemetry_events, h]
    · have ht2 : ¬ (w.hw_param = true ∧ w.o_notify = true) := by simpa using ht
      simp [hr, hw_param_error, ht, emit, telemetry_events, h, ht2]
  · simp [hr, telemetry_events, h]

theorem single_run_spec (op : Op) (w : World) (hs : op.single = true) (h : w.locked = false) :
    ∃ ret w', op.run w = some (ret, w') ∧
      (retry_ret w.bus w.issued < 0 → ret = retry_ret w.bus w.issued) ∧
      (0 ≤ retry_ret w.bus w.issued → 0 ≤ ret) ∧
      w'.bus = w.bus ∧ w'.issued = w.issued + retry_count w.bus w.issued ∧
      w'.trace = w.trace ++ Event.mutex_lock ::
        (retry_events op.xfer.1 op.xfer.2 w.bus w.issued ++
          Event.mutex_unlock :: telemetry_events (retry_ret w.bus w.issued) w) ∧
      w'.locked = false ∧ w'.held = w.held ∧
      w'.hw_err_count = w.hw_err_count + (telemetry_events (retry_ret w.bus w.issued) w).length := by
  cases op with
  | update_reg c reg val mask => simp [Op.single] at hs
  | read_reg c reg dest =>
    obtain ⟨w', he, hb, hi, ht, hk, hh, _, _, hc⟩ := locked_retry_spec c (Xfer.read_byte_data reg) w h
    by_cases hr : retry_ret w.bus w.issued < 0
    · exact ⟨_, w', by simp [Op.run, sm5714_read_reg, he, hr], fun _ => rfl, fun h0 => by omega,
        hb, hi, ht, hk, hh, hc⟩
    · exact ⟨0, w', by simp [Op.run, sm5714_read_reg, he, hr], fun h0 => absurd h0 hr,
        fun _ => le_refl 0, hb, hi, ht, hk, hh, hc⟩
  | bulk_read c reg count =>
    obtain ⟨w', he, hb, hi, ht, hk, hh, _, _, hc⟩ :=
      locked_retry_spec c (Xfer.read_i2c_block_data reg count) w h
    by_cases hr : retry_ret w.bus w.issued < 0
    · exact ⟨_, w', by simp [Op.run, sm5714_bulk_read, he, hr], fun _ => rfl, fun h0 => by omega,
        hb, hi, ht, hk, hh, hc⟩
    · exact ⟨0, w', by simp [Op.run, sm5714_bulk_read, he, hr], fun h0 => absurd h0 hr,
        fun _ => le_refl 0, hb, hi, ht, hk, hh, hc⟩
  | read_word c reg =>
    obtain ⟨w', he, hb, hi, ht, hk, hh, _, _, hc⟩ := locked_retry_spec c (Xfer.read_word_data reg) w h
    exact ⟨_, w', by simp [Op.run, sm5714_read_word, he], fun _ => rfl, fun h0 => h0,
      hb, hi, ht, hk, hh, hc⟩
  | write_reg c reg value =>
    obtain ⟨w', he, hb, hi, ht, hk, hh, _, _, hc⟩ :=
      locked_retry_spec c (Xfer.write_byte_data reg value) w h
    exact ⟨_, w', by simp [Op.run, sm5714_write_reg, he], fun _ => rfl, fun h0 => h0,
      hb, hi, ht, hk, hh, hc⟩
  | bulk_write c reg count buf =>
    obtain ⟨w', he, hb, hi, ht, hk, hh, _, _, hc⟩ :=
      locked_retry_spec c (Xfer.write_i2c_block_data reg count buf) w h
    by_cases hr : retry_ret w.bus w.issued < 0
    · exact ⟨_, w', by simp [Op.run, sm5714_bulk_write, he, hr], fun _ => rfl, fun h0 => by omega,
        hb, hi, ht, hk, hh, hc⟩
    · exact ⟨0, w', by simp [Op.run, sm5714_bulk_write, he, hr], fun h0 => absurd h0 hr,
        fun _ => le_refl 0, hb, hi, ht, hk, hh, hc⟩
  | write_word c reg value =>
    obtain ⟨w', he, hb, hi, ht, hk, hh, _, _, hc⟩ :=
      locked_retry_spec c (Xfer.write_word_data reg value) w h
    by_cases hr : retry_ret w.bus w.issued < 0
    · exact ⟨_, w', by simp [Op.run, sm5714_write_word, he, hr], fun _ => rfl, fun h0 => by omega,
        hb, hi, ht, hk, hh, hc⟩
    · exact ⟨0, w', by simp [Op.run, sm5714_write_word, he, hr], fun h0 => absurd h0 hr,
        fun _ => le_refl 0, hb, hi, ht, hk, hh, hc⟩

theorem xfers_retry_events (c : Client) (x : Xfer) (bus : Nat → CInt) (n : Nat) :
    xfers (retry_events c x bus n) =
      (List.range (retry_count bus n)).map (fun j => (c, x, (bus (n + j)).val)) := by
  unfold retry_events retry_count
  split_ifs <;> simp [xfers, List.range_succ]

theorem xfers_telemetry_events (ret : Int) (w : World) : xfers (telemetry_events ret w) = [] := by
  unfold telemetry_events
  split_ifs <;> simp [xfers]

theorem retry_count_of_all_neg (bus : Nat → CInt) (n : Nat)
    (h : (bus n).val < 0 ∧ (bus (n + 1)).val < 0 ∧ (bus (n + 2)).val < 0) :
    retry_count bus n = 3 ∧ retry_ret bus n < 0 := by
  unfold retry_count retry_ret
  split_ifs <;> omega

theorem retry_count_of_first_ok (bus : Nat → CInt) (n k : Nat) (hk : k < 3)
    (h : 0 ≤ (bus (n + k)).val) (hj : ∀ j, j < k → (bus (n + j)).val < 0) :
    retry_count bus n = k + 1 ∧ retry_ret bus n = (bus (n + k)).val := by
  have h0 := hj 0
  have h1 := hj 1
  simp only [Nat.add_zero] at h0
  unfold retry_count retry_ret
  interval_cases k
  · simp only [Nat.add_zero] at h
    simp [h]
  · have := h0 (by omega)
    simp [h, not_le.mpr this]
  · have := h0 (by omega)
    have := h1 (by omega)
    simp [h, not_le.mpr ‹(bus n).val < 0›, not_le.mpr ‹(bus (n + 1)).val < 0›]

/-- C2: each of the six single-transaction operations, started with the lock free, returns;
if all three attempts return a negative status it has issued exactly three bus transactions
and returns a negative status; if the first non-negative status occurs on attempt `k + 1`
(`k < 3`) it has issued exactly the `k + 1` transactions up to that one, none after it, and
returns a non-negative status. -/
theorem single_op_retry_bound (op : Op) (w : World) (hs : op.single = true)
    (hl : w.locked = false) :
    ∃ ret w', op.run w = some (ret, w') ∧
      (((w.bus w.issued).val < 0 ∧ (w.bus (w.issued + 1)).val < 0 ∧
          (w.bus (w.issued + 2)).val < 0) →
        ret < 0 ∧ w'.issued = w.issued + 3 ∧
        xfers w'.trace = xfers w.trace ++
          (List.range 3).map (fun j => (op.xfer.1, op.xfer.2, (w.bus (w.issued + j)).val))) ∧
      (∀ k, k < 3 → 0 ≤ (w.bus (w.issued + k)).val →
        (∀ j, j < k → (w.bus (w.issued + j)).val < 0) →
        0 ≤ ret ∧ w'.issued = w.issued + (k + 1) ∧
        xfers w'.trace = xfers w.trace ++
          (List.range (k + 1)).map
            (fun j => (op.xfer.1, op.xfer.2, (w.bus (w.issued + j)).val))) := by
  obtain ⟨ret, w', he, hneg, hpos, _, hi, ht, _, _, _⟩ := single_run_spec op w hs hl
  have hx : xfers w'.trace = xfers w.trace ++
      (List.range (retry_count w.bus w.issued)).map
        (fun j => (op.xfer.1, op.xfer.2, (w.bus (w.issued + j)).val)) := by
    rw [ht]
    simp [xfers_append, xfers, xfers_retry_events, xfers_telemetry_events]
  refine ⟨ret, w', he, ?_, ?_⟩
  · intro hall
    obtain ⟨hc, hr⟩ := retry_count_of_all_neg w.bus w.issued hall
    refine ⟨by rw [hneg hr]; exact hr, by rw [hi, hc], by rw [hx, hc]⟩
  · intro k hk hok hj
    obtain ⟨hc, hr⟩ := retry_count_of_first_ok w.bus w.issued k hk hok hj
    refine ⟨hpos (by rw [hr]; exact hok), by rw [hi, hc], by rw [hx, hc]⟩

/-- Witness of C2: a byte write whose first attempt fails and whose second succeeds issues two
transactions and reports success. -/
theorem single_op_retry_bound_witness :
    (Op.write_reg Client.charger 16 171).single = true ∧
      (world_of [⟨-5, by decide⟩, ⟨0, by decide⟩]).locked = false ∧
      ∃ ret w', (Op.write_reg Client.charger 16 171).run
          (world_of [⟨-5, by decide⟩, ⟨0, by decide⟩]) = some (ret, w') ∧
        0 ≤ ret ∧ w'.issued = 2 := by
  refine ⟨rfl, rfl, ?_⟩
  obtain ⟨ret, w', he, _, h2⟩ :=
    single_op_retry_bound (Op.write_reg Client.charger 16 171)
      (world_of [⟨-5, by decide⟩, ⟨0, by decide⟩]) rfl rfl
  have h := h2 1 (by decide) (by decide) (by
    intro j hj
    interval_cases j
    decide)
  exact ⟨ret, w', he, h.1, h.2.1⟩

/-! ## The update rule on bits -/

theorem testBit_compl32 (mask i : Nat) (hm : mask < 256) :
    (4294967295 - mask).testBit i = (decide (i < 32) && !mask.testBit i) := by
  have h : 4294967295 - mask = 2 ^ 32 - (mask + 1) := by norm_num; omega
  rw [h]
  exact Nat.testBit_two_pow_sub_succ (by omega) i

theorem testBit_compl8 (mask i : Nat) (hm : mask < 256) :
    (255 - mask).testBit i = (decide (i < 8) && !mask.testBit i) := by
  have h : 255 - mask = 2 ^ 8 - (mask + 1) := by norm_num; omega
  rw [h]
  exact Nat.testBit_two_pow_sub_succ (by omega) i

theorem testBit_byte_high (x i : Nat) (hx : x < 256) (hi : 8 ≤ i) : x.testBit i = false := by
  apply Nat.testBit_eq_false_of_lt
  calc x < 2 ^ 8 := by omega
    _ ≤ 2 ^ i := Nat.pow_le_pow_right (by decide) hi

theorem new_val_eq_spec (val mask old : Nat) (hv : val < 256) (hm : mask < 256)
    (ho : old < 256) : new_val val mask old = spec_update_byte val mask old := by
  unfold new_val spec_update_byte
  apply Nat.eq_of_testBit_eq
  intro i
  have h256 : (256 : Nat) = 2 ^ 8 := by norm_num
  rw [h256, Nat.testBit_mod_two_pow]
  simp only [Nat.testBit_or, Nat.testBit_and, testBit_compl32 _ _ hm, testBit_compl8 _ _ hm]
  by_cases hi : i < 8
  · have : i < 32 := by omega
    simp [hi, this]
  · have h1 := testBit_byte_high val i hv (by omega)
    have h2 := testBit_byte_high old i ho (by omega)
    simp [hi, h1, h2]

theorem spec_update_byte_bits (val mask old i : Nat) (hm : mask < 256) (hi : i < 8) :
    (spec_update_byte val mask old).testBit i =
      if mask.testBit i then val.testBit i else old.testBit i := by
  unfold spec_update_byte
  simp only [Nat.testBit_or, Nat.testBit_and, testBit_compl8 _ _ hm]
  cases mask.testBit i <;> simp [hi]

theorem new_val_lt (val mask old : Nat) : new_val val mask old < 256 := by
  unfold new_val
  omega

theorem low_byte_lt (r : Int) : (r % 256).toNat < 256 := by
  omega

theorem mem_xfers_retry_events (c : Client) (x : Xfer) (bus : Nat → CInt) (n : Nat)
    (t : Client × Xfer × Int) (h : t ∈ xfers (retry_events c x bus n)) :
    t.1 = c ∧ t.2.1 = x := by
  rw [xfers_retry_events] at h
  simp only [List.mem_map] at h
  obtain ⟨j, _, rfl⟩ := h
  exact ⟨rfl, rfl⟩

theorem first_mem_xfers_retry_events (c : Client) (x : Xfer) (bus : Nat → CInt) (n : Nat) :
    (c, x, (bus n).val) ∈ xfers (retry_events c x bus n) := by
  unfold retry_events
  split_ifs <;> simp [xfers]

/-- C1: when the read phase of `sm5714_update_reg` succeeds with old byte `old`, every byte
write the operation issues goes to the same handle and register and carries
`(val & mask) | (old & ~mask)`; at least one such write is issued; that byte agrees with `val`
on the bits set in `mask` and with `old` on the bits clear in `mask`. -/
theorem update_reg_written_byte (c : Client) (reg val mask : Nat) (w : World) (k : Nat)
    (hl : w.locked = false) (hv : val < 256) (hm : mask < 256) (hk : k < 3)
    (hok : 0 ≤ (w.bus (w.issued + k)).val)
    (hj : ∀ j, j < k → (w.bus (w.issued + j)).val < 0) :
    ∃ ret w' evs, sm5714_update_reg c reg val mask w = some (ret, w') ∧
      w'.trace = w.trace ++ evs ∧
      (∃ r, (c, Xfer.write_byte_data reg
          (spec_update_byte val mask ((w.bus (w.issued + k)).val % 256).toNat), r) ∈ xfers evs) ∧
      (∀ t ∈ xfers evs, is_write_byte t = true →
        t.1 = c ∧ t.2.1 = Xfer.write_byte_data reg
          (spec_update_byte val mask ((w.bus (w.issued + k)).val % 256).toNat)) ∧
      spec_update_byte val mask ((w.bus (w.issued + k)).val % 256).toNat < 256 ∧
      ∀ i, i < 8 →
        (spec_update_byte val mask ((w.bus (w.issued + k)).val % 256).toNat).testBit i =
          if mask.testBit i then val.testBit i
          else (((w.bus (w.issued + k)).val % 256).toNat).testBit i := by
  obtain ⟨hc, hr⟩ := retry_count_of_first_ok w.bus w.issued k hk hok hj
  have hr0 : 0 ≤ retry_ret w.bus w.issued := by rw [hr]; exact hok
  have hnv := new_val_eq_spec val mask ((w.bus (w.issued + k)).val % 256).toNat hv hm
    (low_byte_lt _)
  rw [update_reg_eq c reg val mask w hl, if_pos hr0, hr, hnv]
  refine ⟨_, _, Event.mutex_lock ::
    (retry_events c (Xfer.read_byte_data reg) w.bus w.issued ++
      (retry_events c (Xfer.write_byte_data reg
          (spec_update_byte val mask ((w.bus (w.issued + k)).val % 256).toNat))
        w.bus (w.issued + retry_count w.bus w.issued) ++ [Event.mutex_unlock])),
    rfl, rfl, ?_, ?_, ?_, ?_⟩
  · refine ⟨(w.bus (w.issued + retry_count w.bus w.issued)).val, ?_⟩
    simp only [xfers_append, xfers, List.mem_append]
    exact Or.inr (Or.inl (first_mem_xfers_retry_events _ _ _ _))
  · intro t ht hw
    simp only [xfers_append, xfers, List.mem_append, List.not_mem_nil, or_false] at ht
    rcases ht with ht | ht
    · obtain ⟨_, h2⟩ := mem_xfers_retry_events _ _ _ _ t ht
      obtain ⟨a, b, r⟩ := t
      simp only at h2
      subst h2
      simp [is_write_byte] at hw
    · exact mem_xfers_retry_events _ _ _ _ t ht
  · rw [← hnv]
    exact new_val_lt _ _ _
  · intro i hi
    exact spec_update_byte_bits _ _ _ _ hm hi

/-- Witness of C1: with old byte `0x5A`, `val = 0xC3` and `mask = 0x0F` the byte `0x53` is
written. -/
theorem update_reg_written_byte_witness :
    (world_of [⟨90, by decide⟩, ⟨0, by decide⟩]).locked = false ∧
      0 ≤ ((world_of [⟨90, by decide⟩, ⟨0, by decide⟩]).bus 0).val ∧
      ∃ ret w' evs, sm5714_update_reg Client.charger 16 195 15
          (world_of [⟨90, by decide⟩, ⟨0, by decide⟩]) = some (ret, w') ∧
        w'.trace = evs ∧
        ∃ r, (Client.charger, Xfer.write_byte_data 16 83, r) ∈ xfers evs := by
  obtain ⟨ret, w', evs, he, ht, ⟨r, hr⟩, _⟩ :=
    update_reg_written_byte Client.charger 16 195 15
      (world_of [⟨90, by decide⟩, ⟨0, by decide⟩]) 0 rfl (by decide) (by decide) (by decide)
      (by decide) (by intro j hj; omega)
  exact ⟨rfl, by decide, ret, w', evs, he, by simpa [world_of] using ht, r, hr⟩

/-- C10: if all three read attempts fail, `sm5714_update_reg` issues exactly those three
reads, no write, and returns the status of the last attempt, which is negative; if all three
attempts of `sm5714_read_reg` fail it returns the negative status of the last attempt and
`*dest` keeps its value; if the first non-negative status of `sm5714_read_reg` is on attempt
`k + 1` it returns `0` and `*dest` is the low eight bits of that status. -/
theorem failure_leaves_target (c : Client) (reg val mask dest : Nat) (w : World)
    (hl : w.locked = false) :
    (((w.bus w.issued).val < 0 ∧ (w.bus (w.issued + 1)).val < 0 ∧
        (w.bus (w.issued + 2)).val < 0) →
      (∃ w', sm5714_update_reg c reg val mask w = some ((w.bus (w.issued + 2)).val, w') ∧
        xfers w'.trace = xfers w.trace ++
          (List.range 3).map
            (fun j => (c, Xfer.read_byte_data reg, (w.bus (w.issued + j)).val))) ∧
      (∃ w', sm5714_read_reg c reg dest w = some ((w.bus (w.issued + 2)).val, dest, w'))) ∧
    (∀ k, k < 3 → 0 ≤ (w.bus (w.issued + k)).val →
      (∀ j, j < k → (w.bus (w.issued + j)).val < 0) →
      ∃ w', sm5714_read_reg c reg dest w =
        some (0, ((w.bus (w.issued + k)).val % 256).toNat, w')) := by
  obtain ⟨w1, he, _⟩ := locked_retry_spec c (Xfer.read_byte_data reg) w hl
  constructor
  · intro hall
    obtain ⟨hc, hr⟩ := retry_count_of_all_neg w.bus w.issued hall
    have hv : retry_ret w.bus w.issued = (w.bus (w.issued + 2)).val := by
      unfold retry_ret
      split_ifs <;> omega
    constructor
    · rw [update_reg_eq c reg val mask w hl, if_neg (not_le.mpr hr), hv]
      refine ⟨_, rfl, ?_⟩
      unfold hw_param_error
      split_ifs <;>
        simp [mutex_unlock, emit, xfers_append, xfers, xfers_retry_events, hc]
    · refine ⟨w1, ?_⟩
      rw [hv] at hr he
      simp [sm5714_read_reg, he, hr]
  · intro k hk hok hj
    obtain ⟨hc, hr⟩ := retry_count_of_first_ok w.bus w.issued k hk hok hj
    refine ⟨w1, ?_⟩
    rw [hr] at he
    simp [sm5714_read_reg, he, not_lt.mpr hok]

/-- Witness of C10: three failing attempts with last status `-6`; `*dest` keeps `0x77`. -/
theorem failure_leaves_target_witness :
    (world_of [⟨-5, by decide⟩, ⟨-5, by decide⟩, ⟨-6, by decide⟩]).locked = false ∧
      ∃ w', sm5714_read_reg Client.charger 16 119
        (world_of [⟨-5, by decide⟩, ⟨-5, by decide⟩, ⟨-6, by decide⟩]) = some (-6, 119, w') :=
  ⟨rfl, ((failure_leaves_target Client.charger 16 0 0 119
    (world_of [⟨-5, by decide⟩, ⟨-5, by decide⟩, ⟨-6, by decide⟩]) rfl).1
      ⟨by decide, by decide, by decide⟩).2⟩

/-! ## Lock discipline -/

theorem lock_not_mem_retry_events (c : Client) (x : Xfer) (bus : Nat → CInt) (n : Nat) :
    Event.mutex_lock ∉ retry_events c x bus n ∧ Event.mutex_unlock ∉ retry_events c x bus n := by
  unfold retry_events
  split_ifs <;> simp

theorem lock_not_mem_telemetry_events (ret : Int) (w : World) :
    Event.mutex_lock ∉ telemetry_events ret w ∧ Event.mutex_unlock ∉ telemetry_events ret w := by
  unfold telemetry_events
  split_ifs <;> simp

theorem retry_count_pos (bus : Nat → CInt) (n : Nat) : 0 < retry_count bus n := by
  unfold retry_count
  split_ifs <;> omega

/-- C9: every transport operation started with the lock free returns; the actions it adds to
the trace are one `mutex_lock`, then a block without lock or unlock that contains all of its
bus transactions, then one `mutex_unlock`, then a tail without lock, unlock or bus
transaction; the lock is free afterwards.  For `sm5714_update_reg` the block holds the read
phase and the write phase. -/
theorem lock_discipline (op : Op) (w : World) (hl : w.locked = false) :
    ∃ ret w' mid tail, op.run w = some (ret, w') ∧
      w'.trace = w.trace ++ Event.mutex_lock :: (mid ++ Event.mutex_unlock :: tail) ∧
      Event.mutex_lock ∉ mid ∧ Event.mutex_unlock ∉ mid ∧
      Event.mutex_lock ∉ tail ∧ Event.mutex_unlock ∉ tail ∧ xfers tail = [] ∧
      xfers w'.trace = xfers w.trace ++ xfers mid ∧
      (xfers mid).length = w'.issued - w.issued ∧ 0 < (xfers mid).length ∧
      w'.locked = false := by
  by_cases hs : op.single = true
  · obtain ⟨ret, w', he, _, _, _, hi, ht, hk, _, _⟩ := single_run_spec op w hs hl
    refine ⟨ret, w', retry_events op.xfer.1 op.xfer.2 w.bus w.issued,
      telemetry_events (retry_ret w.bus w.issued) w, he, ht,
      (lock_not_mem_retry_events _ _ _ _).1, (lock_not_mem_retry_events _ _ _ _).2,
      (lock_not_mem_telemetry_events _ _).1, (lock_not_mem_telemetry_events _ _).2,
      xfers_telemetry_events _ _, ?_, ?_, ?_, hk⟩
    · rw [ht]
      simp [xfers_append, xfers, xfers_telemetry_events]
    · rw [hi]
      simp [xfers_retry_events]
    · simp [xfers_retry_events, retry_count_pos]
  · cases op with
    | update_reg c reg val mask =>
      by_cases hr : 0 ≤ retry_ret w.bus w.issued
      · refine ⟨_, _,
          retry_events c (Xfer.read_byte_data reg) w.bus w.issued ++
            retry_events c (Xfer.write_byte_data reg
              (new_val val mask (retry_ret w.bus w.issued % 256).toNat)) w.bus
              (w.issued + retry_count w.bus w.issued), [],
          by simp only [Op.run]; rw [update_reg_eq c reg val mask w hl, if_pos hr], ?_⟩
        have h1 := lock_not_mem_retry_events c (Xfer.read_byte_data reg) w.bus w.issued
        have h2 := lock_not_mem_retry_events c (Xfer.write_byte_data reg
          (new_val val mask (retry_ret w.bus w.issued % 256).toNat)) w.bus
          (w.issued + retry_count w.bus w.issued)
        have h3 := retry_count_pos w.bus w.issued
        simp [xfers_append, xfers, xfers_retry_events, h1.1, h1.2, h2.1, h2.2, h3, hl]
        omega
      · refine ⟨_, _,
          retry_events c (Xfer.read_byte_data reg) w.bus w.issued ++
            telemetry_events (retry_ret w.bus w.issued) w, [],
          by simp only [Op.run]; rw [update_reg_eq c reg val mask w hl, if_neg hr], ?_⟩
        have h1 := lock_not_mem_retry_events c (Xfer.read_byte_data reg) w.bus w.issued
        have h2 := lock_not_mem_telemetry_events (retry_ret w.bus w.issued) w
        have h3 := retry_count_pos w.bus w.issued
        have hr2 : retry_ret w.bus w.issued < 0 := not_le.mp hr
        by_cases ht : w.hw_param = true ∧ w.o_notify = true
        · simp [hw_param_error, mutex_unlock, emit, telemetry_events, hr2, ht.1, ht.2,
            xfers_append, xfers, xfers_retry_events, h1.1, h1.2, h3]
        · have ht2 : ¬ ((w.hw_param && w.o_notify) = true) := by simpa using ht
          simp [hw_param_error, mutex_unlock, emit, telemetry_events, hr2, ht, ht2,
            xfers_append, xfers, xfers_retry_events, h1.1, h1.2, h3]
    | _ => simp [Op.single] at hs

/-- Witness of C9: a read-modify-write whose read and write both succeed at once holds the
lock over both transactions. -/
theorem lock_discipline_witness :
    (world_of [⟨90, by decide⟩, ⟨0, by decide⟩]).locked = false ∧
      ∃ ret w' mid tail, (Op.update_reg Client.charger 16 195 15).run
          (world_of [⟨90, by decide⟩, ⟨0, by decide⟩]) = some (ret, w') ∧
        w'.trace = (world_of [⟨90, by decide⟩, ⟨0, by decide⟩]).trace ++
          Event.mutex_lock :: (mid ++ Event.mutex_unlock :: tail) ∧
        Event.mutex_unlock ∉ mid ∧ w'.locked = false := by
  obtain ⟨ret, w', mid, tail, he, ht, _, hu, _, _, _, _, _, _, hk⟩ :=
    lock_discipline (Op.update_reg Client.charger 16 195 15)
      (world_of [⟨90, by decide⟩, ⟨0, by decide⟩]) rfl
  exact ⟨rfl, ret, w', mid, tail, he, ht, hu, hk⟩

/-! ## Telemetry -/

/-- C6, evaluated: with telemetry enabled, `sm5714_update_reg` whose read succeeds and whose
three write attempts fail returns `-5` after four transactions and leaves the hardware-error
counter at `0`, while `sm5714_write_reg` whose three attempts fail returns `-5` with the
counter at `1`. -/
theorem update_reg_write_failure_not_counted :
    (sm5714_update_reg Client.charger 16 195 15 (world_of [⟨90, by decide⟩])).map
        (fun r => (r.1, r.2.issued, r.2.hw_err_count)) = some (-5, 4, 0) ∧
      (sm5714_write_reg Client.charger 16 83 (world_of [])).map
        (fun r => (r.1, r.2.issued, r.2.hw_err_count)) = some (-5, 3, 1) := by
  decide

/-! ## Bring-up: lemmas and theorems -/

theorem locked_retry_after (c : Client) (x : Xfer) (w : World) (h : w.locked = false) :
    locked_retry c x w = some (retry_ret w.bus w.issued, after_retry c x w) := by
  rw [locked_retry_eq c x w h]
  by_cases hr : retry_ret w.bus w.issued < 0
  · by_cases ht : (w.hw_param && w.o_notify) = true
    · have ht2 : w.hw_param = true ∧ w.o_notify = true := by simpa using ht
      simp [hr, hw_param_error, ht2.1, ht2.2, emit, telemetry_events, h, after_retry]
    · have ht2 : ¬ (w.hw_param = true ∧ w.o_notify = true) := by simpa using ht
      simp [hr, hw_param_error, ht, emit, telemetry_events, h, ht2, after_retry]
  · simp [hr, telemetry_events, h, after_retry]

theorem read_reg_after (c : Client) (reg dest : Nat) (w : World) (h : w.locked = false) :
    sm5714_read_reg c reg dest w =
      some (if retry_ret w.bus w.issued < 0 then retry_ret w.bus w.issued else 0,
        if retry_ret w.bus w.issued < 0 then dest else (retry_ret w.bus w.issued % 256).toNat,
        after_retry c (Xfer.read_byte_data reg) w) := by
  simp only [sm5714_read_reg, locked_retry_after c _ w h]
  split_ifs <;> rfl

theorem read_word_after (c : Client) (reg : Nat) (w : World) (h : w.locked = false) :
    sm5714_read_word c reg w =
      some (retry_ret w.bus w.issued, after_retry c (Xfer.read_word_data reg) w) := by
  simp only [sm5714_read_word, locked_retry_after c _ w h]

theorem retry_ret_range (bus : Nat → CInt) (n : Nat) :
    -2147483648 ≤ retry_ret bus n ∧ retry_ret bus n ≤ 2147483647 := by
  unfold retry_ret
  split_ifs
  · exact (bus n).property
  · exact (bus (n + 1)).property
  · exact (bus (n + 2)).property

theorem call_not_mem_retry_events (f : Call) (c : Client) (x : Xfer) (bus : Nat → CInt)
    (n : Nat) : Event.call f ∉ retry_events c x bus n := by
  unfold retry_events
  split_ifs <;> simp

theorem call_not_mem_telemetry_events (f : Call) (ret : Int) (w : World) :
    Event.call f ∉ telemetry_events ret w := by
  unfold telemetry_events
  split_ifs <;> simp

theorem probe_eq_primary (regs : Regs) (env : ProbeEnv) (w : World)
    (h : reaches_identity env) :
    sm5714_i2c_probe regs env w = probe_primary regs env (pre_identity env w) := by
  obtain ⟨hk, hcfg, hdesc⟩ := h
  by_cases hof : env.of_node = true
  · simp only [hof, if_true] at hcfg
    simp [sm5714_i2c_probe, pre_identity, hk, hof, hcfg, of_sm5714_dt, not_lt.mpr hdesc]
  · have hcfg2 : env.platform_data = true := by simpa [hof] using hcfg
    simp [sm5714_i2c_probe, pre_identity, hk, hof, hcfg2, not_lt.mpr hdesc]

theorem probe_primary_eq (regs : Regs) (env : ProbeEnv) (w : World) (h : w.locked = false) :
    probe_primary regs env w =
      if 0 ≤ retry_ret w.bus w.issued ∧ (retry_ret w.bus w.issued % 256).toNat &&& 7 = 1 then
        probe_fuelgauge regs env
          ⟨(retry_ret w.bus w.issued % 256).toNat &&& 7,
            ((retry_ret w.bus w.issued % 256).toNat >>> 3) &&& 31⟩
          (retry_ret w.bus w.issued % 256).toNat
          (after_retry Client.charger (Xfer.read_byte_data regs.chg_deviceid) w)
      else
        some (err_w_lock (-ENODEV) ⟨0, 0⟩
          (after_retry Client.charger (Xfer.read_byte_data regs.chg_deviceid) w)) := by
  simp only [probe_primary, read_reg_after _ _ _ w h]
  by_cases hr : retry_ret w.bus w.issued < 0
  · simp [hr, not_le.mpr hr]
  · by_cases hb : (retry_ret w.bus w.issued % 256).toNat &&& 7 = 1
    · simp [hr, not_lt.mp hr, hb]
    · simp [hr, hb]

theorem probe_fuelgauge_eq (regs : Regs) (env : ProbeEnv) (dev : Dev) (temp : Nat) (w : World)
    (h : w.locked = false) :
    probe_fuelgauge regs env dev temp w =
      if 0 ≤ retry_ret w.bus w.issued ∧ retry_ret w.bus w.issued ≤ 255 then
        probe_muic regs env dev temp
          (after_retry Client.fuelgauge (Xfer.read_word_data regs.fg_device_id)
            (acquire Resource.fuelgauge (Call.i2c_new_dummy Client.fuelgauge) w))
      else
        some (err_w_lock (-ENODEV) dev
          (after_retry Client.fuelgauge (Xfer.read_word_data regs.fg_device_id)
            (acquire Resource.fuelgauge (Call.i2c_new_dummy Client.fuelgauge) w))) := by
  have hl : (acquire Resource.fuelgauge (Call.i2c_new_dummy Client.fuelgauge) w).locked
      = false := h
  have hrange := retry_ret_range w.bus w.issued
  simp only [probe_fuelgauge, read_word_after _ _ _ hl]
  have hb : (acquire Resource.fuelgauge (Call.i2c_new_dummy Client.fuelgauge) w).bus
      = w.bus := rfl
  have hi : (acquire Resource.fuelgauge (Call.i2c_new_dummy Client.fuelgauge) w).issued
      = w.issued := rfl
  rw [hb, hi]
  by_cases hr : 0 ≤ retry_ret w.bus w.issued ∧ retry_ret w.bus w.issued ≤ 255
  · have : ¬ retry_ret w.bus w.issued % 4294967296 > 255 := by omega
    simp [hr, this]
  · have : retry_ret w.bus w.issued % 4294967296 > 255 := by omega
    simp [hr, this]

theorem probe_muic_eq (regs : Regs) (env : ProbeEnv) (dev : Dev) (temp : Nat) (w : World)
    (h : w.locked = false) :
    probe_muic regs env dev temp w =
      if 0 ≤ retry_ret w.bus w.issued ∧ (retry_ret w.bus w.issued % 256).toNat = 1 then
        some (probe_finish env dev
          (after_retry Client.muic (Xfer.read_byte_data regs.muic_deviceid)
            (acquire Resource.muic (Call.i2c_new_dummy Client.muic) w)))
      else
        some (err_w_lock (-ENODEV) dev
          (after_retry Client.muic (Xfer.read_byte_data regs.muic_deviceid)
            (acquire Resource.muic (Call.i2c_new_dummy Client.muic) w))) := by
  have hl : (acquire Resource.muic (Call.i2c_new_dummy Client.muic) w).locked = false := h
  simp only [probe_muic, read_reg_after _ _ _ _ hl]
  have hb : (acquire Resource.muic (Call.i2c_new_dummy Client.muic) w).bus = w.bus := rfl
  have hi : (acquire Resource.muic (Call.i2c_new_dummy Client.muic) w).issued = w.issued := rfl
  rw [hb, hi]
  by_cases hr : retry_ret w.bus w.issued < 0
  · simp [hr, not_le.mpr hr]
  · by_cases hb : (retry_ret w.bus w.issued % 256).toNat = 1
    · simp [hr, not_lt.mp hr, hb]
    · simp [hr, hb]

theorem pre_identity_facts (env : ProbeEnv) (w : World) :
    (pre_identity env w).bus = w.bus ∧ (pre_identity env w).issued = w.issued ∧
      (pre_identity env w).locked = false ∧
      (pre_identity env w).trace = w.trace ++ pre_calls env ∧
      (pre_identity env w).held = w.held ++
        [Resource.sm5714_dev, Resource.irq_ws, Resource.irq_descs, Resource.i2c_lock] ∧
      (pre_identity env w).hw_param = w.hw_param ∧
      (pre_identity env w).o_notify = w.o_notify := by
  unfold pre_identity pre_calls
  split_ifs <;> simp [mutex_init, acquire, call, emit]

theorem after_retry_bus (c : Client) (x : Xfer) (w : World) :
    (after_retry c x w).bus = w.bus := rfl

theorem after_retry_issued (c : Client) (x : Xfer) (w : World) :
    (after_retry c x w).issued = w.issued + retry_count w.bus w.issued := rfl

theorem after_retry_locked (c : Client) (x : Xfer) (w : World) :
    (after_retry c x w).locked = false := rfl

theorem after_retry_trace (c : Client) (x : Xfer) (w : World) :
    (after_retry c x w).trace = w.trace ++ Event.mutex_lock ::
      (retry_events c x w.bus w.issued ++
        Event.mutex_unlock :: telemetry_events (retry_ret w.bus w.issued) w) := rfl

theorem after_retry_held (c : Client) (x : Xfer) (w : World) :
    (after_retry c x w).held = w.held := rfl

/-- C5: when allocation, configuration, descriptor reservation, interrupt initialisation and
publication succeed, probe reports success exactly when the primary byte has low three bits
`1`, the fuel-gauge word read returns a value in `0..0xFF` and the mux byte is `1`; on
success vendor is `1`, revision is `(b >> 3) & 0x1F` and `mfd_add_devices` has been called;
when the first two checks pass and the mux check does not, probe returns `-ENODEV` and
`mfd_add_devices` is not called. -/
theorem probe_success_iff (regs : Regs) (env : ProbeEnv) (w : World)
    (hreach : reaches_identity env) (hirq : 0 ≤ env.sm5714_irq_init.val)
    (hmfd : 0 ≤ env.mfd_add_devices.val) :
    ∃ res, sm5714_i2c_probe regs env w = some res ∧
      (0 ≤ res.ret ↔
        (0 ≤ primary_ret w ∧ primary_byte w &&& 7 = 1) ∧
        (0 ≤ fg_ret w ∧ fg_ret w ≤ 255) ∧
        (0 ≤ muic_ret w ∧ (muic_ret w % 256).toNat = 1)) ∧
      (0 ≤ res.ret →
        res.ret = env.mfd_add_devices.val ∧ res.dev.vender_id = 1 ∧
        res.dev.pmic_rev = (primary_byte w >>> 3) &&& 31 ∧
        Event.call Call.mfd_add_devices ∈ new_events w res) ∧
      ((0 ≤ primary_ret w ∧ primary_byte w &&& 7 = 1) → (0 ≤ fg_ret w ∧ fg_ret w ≤ 255) →
        ¬ (0 ≤ muic_ret w ∧ (muic_ret w % 256).toNat = 1) →
        res.ret = -ENODEV ∧ Event.call Call.mfd_add_devices ∉ new_events w res) := by
  obtain ⟨hb, hi, hl, ht, -, -, -⟩ := pre_identity_facts env w
  rw [probe_eq_primary regs env w hreach, probe_primary_eq _ _ _ hl, hb, hi]
  simp only [primary_ret, primary_byte, fg_ret, muic_ret]
  by_cases h1 : 0 ≤ retry_ret w.bus w.issued ∧ (retry_ret w.bus w.issued % 256).toNat &&& 7 = 1
  · rw [if_pos h1, probe_fuelgauge_eq _ _ _ _ _ (after_retry_locked _ _ _)]
    simp only [after_retry_bus, after_retry_issued, hb, hi]
    by_cases h2 : 0 ≤ retry_ret w.bus (w.issued + retry_count w.bus w.issued) ∧
        retry_ret w.bus (w.issued + retry_count w.bus w.issued) ≤ 255
    · rw [if_pos h2, probe_muic_eq _ _ _ _ _ (after_retry_locked _ _ _)]
      simp only [after_retry_bus, after_retry_issued, acquire, emit, hb, hi]
      by_cases h3 : 0 ≤ retry_ret w.bus (w.issued + retry_count w.bus w.issued +
          retry_count w.bus (w.issued + retry_count w.bus w.issued)) ∧
          (retry_ret w.bus (w.issued + retry_count w.bus w.issued +
            retry_count w.bus (w.issued + retry_count w.bus w.issued)) % 256).toNat = 1
      · rw [if_pos h3]
        refine ⟨_, rfl, ?_, ?_, ?_⟩
        · simp [probe_finish, not_lt.mpr hirq, not_lt.mpr hmfd, hmfd, h1, h2, h3]
        · intro _
          simp [probe_finish, not_lt.mpr hirq, not_lt.mpr hmfd, h1.2, new_events, call,
            acquire, emit, after_retry_trace, ht]
        · intro _ _ h
          exact absurd h3 h
      · rw [if_neg h3]
        refine ⟨_, rfl, ?_, ?_, ?_⟩
        · simp [err_w_lock, err, ENODEV, h3]
        · simp [err_w_lock, err, ENODEV]
        · intro _ _ _
          simp [err_w_lock, err, release, new_events, emit, after_retry_trace, ht, pre_calls,
            call_not_mem_retry_events, call_not_mem_telemetry_events]
          split_ifs <;> simp
    · rw [if_neg h2]
      refine ⟨_, rfl, ?_, ?_, ?_⟩
      · simp [err_w_lock, err, ENODEV, h2]
      · simp [err_w_lock, err, ENODEV]
      · intro _ h
        exact absurd h h2
  · rw [if_neg h1]
    refine ⟨_, rfl, ?_, ?_, ?_⟩
    · simp [err_w_lock, err, ENODEV, h1]
    · simp [err_w_lock, err, ENODEV]
    · intro h
      exact absurd h h1

/-- Witness of C5: primary byte `0x09`, fuel-gauge word `0x0042`, mux byte `0x01`. -/
theorem probe_success_iff_witness :
    reaches_identity env_ok ∧ 0 ≤ env_ok.sm5714_irq_init.val ∧
      0 ≤ env_ok.mfd_add_devices.val ∧
      ∃ res, sm5714_i2c_probe regs_sample env_ok
          (world_of [⟨9, by decide⟩, ⟨66, by decide⟩, ⟨1, by decide⟩]) = some res ∧
        0 ≤ res.ret ∧ res.dev.vender_id = 1 ∧ res.dev.pmic_rev = 1 := by
  have hreach : reaches_identity env_ok := ⟨rfl, rfl, by decide⟩
  obtain ⟨res, he, hiff, hs, _⟩ :=
    probe_success_iff regs_sample env_ok
      (world_of [⟨9, by decide⟩, ⟨66, by decide⟩, ⟨1, by decide⟩]) hreach (by decide)
      (by decide)
  have h0 : 0 ≤ res.ret := hiff.mpr (by decide)
  refine ⟨hreach, by decide, by decide, res, he, h0, (hs h0).2.1, ?_⟩
  rw [(hs h0).2.2.1]
  decide

theorem probe_finish_facts (env : ProbeEnv) (dev : Dev) (w : World) :
    (probe_finish env dev w).dev = dev ∧
      (probe_finish env dev w).w.trace = w.trace ++ finish_events env ∧
      (probe_finish env dev w).ret =
        (if env.sm5714_irq_init.val < 0 then env.sm5714_irq_init.val
          else env.mfd_add_devices.val) := by
  unfold probe_finish finish_events
  split_ifs <;>
    simp [err_mfd, err_irq_init, err_w_lock, err, release, acquire, call, emit]

theorem new_dummy_not_mem_pre_calls (env : ProbeEnv) (c : Client) :
    Event.call (Call.i2c_new_dummy c) ∉ pre_calls env := by
  unfold pre_calls
  split_ifs <;> simp

theorem xfers_finish_events (env : ProbeEnv) : xfers (finish_events env) = [] := by
  unfold finish_events
  split_ifs <;> simp [xfers]

theorem xfers_pre_calls (env : ProbeEnv) : xfers (pre_calls env) = [] := by
  unfold pre_calls
  split_ifs <;> simp [xfers]

/-- C3: when probe reaches the primary identity read, a successful read with byte `b` is
accepted (the fuel-gauge handle is created) exactly when `b & 0x7 = 1`; on acceptance
`vender_id = b & 0x7` and `pmic_rev = (b >> 3) & 0x1F`; a read that ends in a transport error
is rejected; every rejection returns `-ENODEV`. -/
theorem primary_identity_check (regs : Regs) (env : ProbeEnv) (w : World)
    (hreach : reaches_identity env) :
    ∃ res, sm5714_i2c_probe regs env w = some res ∧
      (0 ≤ primary_ret w →
        (Event.call (Call.i2c_new_dummy Client.fuelgauge) ∈ new_events w res ↔
          primary_byte w &&& 7 = 1)) ∧
      (Event.call (Call.i2c_new_dummy Client.fuelgauge) ∈ new_events w res →
        res.dev.vender_id = primary_byte w &&& 7 ∧
        res.dev.pmic_rev = (primary_byte w >>> 3) &&& 31) ∧
      (primary_ret w < 0 →
        Event.call (Call.i2c_new_dummy Client.fuelgauge) ∉ new_events w res ∧
        res.ret = -ENODEV) ∧
      (Event.call (Call.i2c_new_dummy Client.fuelgauge) ∉ new_events w res →
        res.ret = -ENODEV) := by
  obtain ⟨hb, hi, hl, ht, -, -, -⟩ := pre_identity_facts env w
  rw [probe_eq_primary regs env w hreach, probe_primary_eq _ _ _ hl, hb, hi]
  simp only [primary_ret, primary_byte]
  by_cases h1 : 0 ≤ retry_ret w.bus w.issued ∧ (retry_ret w.bus w.issued % 256).toNat &&& 7 = 1
  · rw [if_pos h1, probe_fuelgauge_eq _ _ _ _ _ (after_retry_locked _ _ _)]
    have hacc : ∀ res : ProbeResult, ∀ evs : List Event,
        res.w.trace = w.trace ++ pre_calls env ++ Event.mutex_lock ::
          (retry_events Client.charger (Xfer.read_byte_data regs.chg_deviceid) w.bus w.issued ++
            Event.mutex_unlock :: telemetry_events (retry_ret w.bus w.issued)
              (pre_identity env w)) ++
          [Event.call (Call.i2c_new_dummy Client.fuelgauge)] ++ evs →
        Event.call (Call.i2c_new_dummy Client.fuelgauge) ∈ new_events w res := by
      intro res evs h
      simp [new_events, h]
    split_ifs with h2
    · rw [probe_muic_eq _ _ _ _ _ (after_retry_locked _ _ _)]
      split_ifs with h3
      · obtain ⟨hd, htr, -⟩ := probe_finish_facts env
          ⟨(retry_ret w.bus w.issued % 256).toNat &&& 7,
            ((retry_ret w.bus w.issued % 256).toNat >>> 3) &&& 31⟩
          (after_retry Client.muic (Xfer.read_byte_data regs.muic_deviceid)
            (acquire Resource.muic (Call.i2c_new_dummy Client.muic)
              (after_retry Client.fuelgauge (Xfer.read_word_data regs.fg_device_id)
                (acquire Resource.fuelgauge (Call.i2c_new_dummy Client.fuelgauge)
                  (after_retry Client.charger (Xfer.read_byte_data regs.chg_deviceid)
                    (pre_identity env w))))))
        have hm := hacc _ _ (by
          rw [htr]
          simp [after_retry_trace, acquire, emit, ht, hb, hi]
          rfl)
        refine ⟨_, rfl, fun _ => ⟨fun _ => h1.2, fun _ => hm⟩, fun _ => ?_,
          fun h => absurd h (not_lt.mpr h1.1), fun h => absurd hm h⟩
        rw [hd]
        exact ⟨rfl, rfl⟩
      · have hm := hacc (err_w_lock (-ENODEV)
            ⟨(retry_ret w.bus w.issued % 256).toNat &&& 7,
              ((retry_ret w.bus w.issued % 256).toNat >>> 3) &&& 31⟩
            (after_retry Client.muic (Xfer.read_byte_data regs.muic_deviceid)
              (acquire Resource.muic (Call.i2c_new_dummy Client.muic)
                (after_retry Client.fuelgauge (Xfer.read_word_data regs.fg_device_id)
                  (acquire Resource.fuelgauge (Call.i2c_new_dummy Client.fuelgauge)
                    (after_retry Client.charger (Xfer.read_byte_data regs.chg_deviceid)
                      (pre_identity env w))))))) _ (by
          simp [err_w_lock, err, release, after_retry_trace, acquire, emit, ht, hb, hi]
          rfl)
        exact ⟨_, rfl, fun _ => ⟨fun _ => h1.2, fun _ => hm⟩, fun _ => ⟨rfl, rfl⟩,
          fun h => absurd h (not_lt.mpr h1.1), fun h => absurd hm h⟩
    · have hm := hacc (err_w_lock (-ENODEV)
          ⟨(retry_ret w.bus w.issued % 256).toNat &&& 7,
            ((retry_ret w.bus w.issued % 256).toNat >>> 3) &&& 31⟩
          (after_retry Client.fuelgauge (Xfer.read_word_data regs.fg_device_id)
            (acquire Resource.fuelgauge (Call.i2c_new_dummy Client.fuelgauge)
              (after_retry Client.charger (Xfer.read_byte_data regs.chg_deviceid)
                (pre_identity env w))))) _ (by
        simp [err_w_lock, err, release, after_retry_trace, acquire, emit, ht, hb, hi]
        rfl)
      exact ⟨_, rfl, fun _ => ⟨fun _ => h1.2, fun _ => hm⟩, fun _ => ⟨rfl, rfl⟩,
        fun h => absurd h (not_lt.mpr h1.1), fun h => absurd hm h⟩
  · rw [if_neg h1]
    have hn : Event.call (Call.i2c_new_dummy Client.fuelgauge) ∉ new_events w
        (err_w_lock (-ENODEV) ⟨0, 0⟩
          (after_retry Client.charger (Xfer.read_byte_data regs.chg_deviceid)
            (pre_identity env w))) := by
      simp [new_events, err_w_lock, err, release, emit, after_retry_trace, ht,
        call_not_mem_retry_events, call_not_mem_telemetry_events, new_dummy_not_mem_pre_calls]
    refine ⟨_, rfl, fun h0 => ⟨fun h => absurd h hn, fun h => absurd ⟨h0, h⟩ h1⟩,
      fun h => absurd h hn, fun _ => ⟨hn, rfl⟩, fun _ => rfl⟩

/-- Witness of C3: primary byte `0x19` (vendor `1`, revision `3`) is accepted. -/
theorem primary_identity_check_witness :
    reaches_identity env_ok ∧
      ∃ res, sm5714_i2c_probe regs_sample env_ok
          (world_of [⟨25, by decide⟩, ⟨66, by decide⟩, ⟨1, by decide⟩]) = some res ∧
        res.dev.vender_id = 1 ∧ res.dev.pmic_rev = 3 := by
  have hreach : reaches_identity env_ok := ⟨rfl, rfl, by decide⟩
  obtain ⟨res, he, hiff, hs, _⟩ :=
    primary_identity_check regs_sample env_ok
      (world_of [⟨25, by decide⟩, ⟨66, by decide⟩, ⟨1, by decide⟩]) hreach
  have hacc := (hiff (by decide)).mpr (by decide)
  refine ⟨hreach, res, he, ?_, ?_⟩
  · rw [(hs hacc).1]
    decide
  · rw [(hs hacc).2]
    decide

/-- C4: when the primary check has passed, the fuel-gauge stage accepts (the mux handle is
created) exactly when the status `r` returned by `sm5714_read_word` satisfies
`0 ≤ r ≤ 0xFF`; a word above `0xFF` and a negative status are both rejected, and every
rejection returns `-ENODEV`. -/
theorem fuelgauge_identity_check (regs : Regs) (env : ProbeEnv) (w : World)
    (hreach : reaches_identity env)
    (hprim : 0 ≤ primary_ret w ∧ primary_byte w &&& 7 = 1) :
    ∃ res, sm5714_i2c_probe regs env w = some res ∧
      (Event.call (Call.i2c_new_dummy Client.muic) ∈ new_events w res ↔
        0 ≤ fg_ret w ∧ fg_ret w ≤ 255) ∧
      (255 < fg_ret w →
        Event.call (Call.i2c_new_dummy Client.muic) ∉ new_events w res ∧ res.ret = -ENODEV) ∧
      (fg_ret w < 0 →
        Event.call (Call.i2c_new_dummy Client.muic) ∉ new_events w res ∧ res.ret = -ENODEV) ∧
      (Event.call (Call.i2c_new_dummy Client.muic) ∉ new_events w res → res.ret = -ENODEV) := by
  obtain ⟨hb, hi, hl, ht, -, -, -⟩ := pre_identity_facts env w
  rw [probe_eq_primary regs env w hreach, probe_primary_eq _ _ _ hl, hb, hi]
  simp only [primary_ret, primary_byte, fg_ret] at hprim ⊢
  rw [if_pos hprim, probe_fuelgauge_eq _ _ _ _ _ (after_retry_locked _ _ _)]
  simp only [after_retry_bus, after_retry_issued, hb, hi]
  by_cases h2 : 0 ≤ retry_ret w.bus (w.issued + retry_count w.bus w.issued) ∧
      retry_ret w.bus (w.issued + retry_count w.bus w.issued) ≤ 255
  · rw [if_pos h2, probe_muic_eq _ _ _ _ _ (after_retry_locked _ _ _)]
    split_ifs with h3
    · obtain ⟨-, htr, -⟩ := probe_finish_facts env
        ⟨(retry_ret w.bus w.issued % 256).toNat &&& 7,
          ((retry_ret w.bus w.issued % 256).toNat >>> 3) &&& 31⟩
        (after_retry Client.muic (Xfer.read_byte_data regs.muic_deviceid)
          (acquire Resource.muic (Call.i2c_new_dummy Client.muic)
            (after_retry Client.fuelgauge (Xfer.read_word_data regs.fg_device_id)
              (acquire Resource.fuelgauge (Call.i2c_new_dummy Client.fuelgauge)
                (after_retry Client.charger (Xfer.read_byte_data regs.chg_deviceid)
                  (pre_identity env w))))))
      refine ⟨_, rfl, ?_⟩
      have hm : Event.call (Call.i2c_new_dummy Client.muic) ∈ new_events w
          (probe_finish env
            ⟨(retry_ret w.bus w.issued % 256).toNat &&& 7,
              ((retry_ret w.bus w.issued % 256).toNat >>> 3) &&& 31⟩
            (after_retry Client.muic (Xfer.read_byte_data regs.muic_deviceid)
              (acquire Resource.muic (Call.i2c_new_dummy Client.muic)
                (after_retry Client.fuelgauge (Xfer.read_word_data regs.fg_device_id)
                  (acquire Resource.fuelgauge (Call.i2c_new_dummy Client.fuelgauge)
                    (after_retry Client.charger (Xfer.read_byte_data regs.chg_deviceid)
                      (pre_identity env w))))))) := by
        simp only [new_events, htr]
        simp [after_retry_trace, acquire, emit, ht]
      exact ⟨⟨fun _ => h2, fun _ => hm⟩, fun h => absurd h2.2 (not_le.mpr h),
        fun h => absurd h2.1 (not_le.mpr h), fun h => absurd hm h⟩
    · refine ⟨_, rfl, ?_⟩
      have hm : Event.call (Call.i2c_new_dummy Client.muic) ∈ new_events w
          (err_w_lock (-ENODEV)
            ⟨(retry_ret w.bus w.issued % 256).toNat &&& 7,
              ((retry_ret w.bus w.issued % 256).toNat >>> 3) &&& 31⟩
            (after_retry Client.muic (Xfer.read_byte_data regs.muic_deviceid)
              (acquire Resource.muic (Call.i2c_new_dummy Client.muic)
                (after_retry Client.fuelgauge (Xfer.read_word_data regs.fg_device_id)
                  (acquire Resource.fuelgauge (Call.i2c_new_dummy Client.fuelgauge)
                    (after_retry Client.charger (Xfer.read_byte_data regs.chg_deviceid)
                      (pre_identity env w))))))) := by
        simp [new_events, err_w_lock, err, release, after_retry_trace, acquire, emit, ht]
      exact ⟨⟨fun _ => h2, fun _ => hm⟩, fun h => absurd h2.2 (not_le.mpr h),
        fun h => absurd h2.1 (not_le.mpr h), fun h => absurd hm h⟩
  · rw [if_neg h2]
    have hn : Event.call (Call.i2c_new_dummy Client.muic) ∉ new_events w
        (err_w_lock (-ENODEV)
          ⟨(retry_ret w.bus w.issued % 256).toNat &&& 7,
            ((retry_ret w.bus w.issued % 256).toNat >>> 3) &&& 31⟩
          (after_retry Client.fuelgauge (Xfer.read_word_data regs.fg_device_id)
            (acquire Resource.fuelgauge (Call.i2c_new_dummy Client.fuelgauge)
              (after_retry Client.charger (Xfer.read_byte_data regs.chg_deviceid)
                (pre_identity env w))))) := by
      simp [new_events, err_w_lock, err, release, acquire, emit, after_retry_trace, ht,
        call_not_mem_retry_events, call_not_mem_telemetry_events, new_dummy_not_mem_pre_calls]
    exact ⟨_, rfl, ⟨fun h => absurd h hn, fun h => absurd h h2⟩, fun _ => ⟨hn, rfl⟩,
      fun _ => ⟨hn, rfl⟩, fun _ => rfl⟩

/-- Witness of C4: with primary byte `0x09`, the word `0x0100` is rejected with `-ENODEV`. -/
theorem fuelgauge_identity_check_witness :
    reaches_identity env_ok ∧
      (0 ≤ primary_ret (world_of [⟨9, by decide⟩, ⟨256, by decide⟩]) ∧
        primary_byte (world_of [⟨9, by decide⟩, ⟨256, by decide⟩]) &&& 7 = 1) ∧
      ∃ res, sm5714_i2c_probe regs_sample env_ok
          (world_of [⟨9, by decide⟩, ⟨256, by decide⟩]) = some res ∧
        res.ret = -ENODEV := by
  have hreach : reaches_identity env_ok := ⟨rfl, rfl, by decide⟩
  obtain ⟨res, he, _, hhi, _⟩ :=
    fuelgauge_identity_check regs_sample env_ok
      (world_of [⟨9, by decide⟩, ⟨256, by decide⟩]) hreach (by decide)
  exact ⟨hreach, by decide, res, he, (hhi (by decide)).2⟩

theorem clients_retry_events (c : Client) (x : Xfer) (bus : Nat → CInt) (n : Nat) :
    (xfers (retry_events c x bus n)).map (fun t => t.1) =
      List.replicate (retry_count bus n) c := by
  unfold retry_events retry_count
  split_ifs <;> simp [xfers, List.replicate]

theorem probe_not_reaching (regs : Regs) (env : ProbeEnv) (w : World)
    (h : ¬ reaches_identity env) :
    ∃ res, sm5714_i2c_probe regs env w = some res ∧
      xfers (new_events w res) = [] ∧
      (∀ c, Event.call (Call.i2c_new_dummy c) ∉ new_events w res) ∧
      res.ret < 0 ∧
      Event.call Call.sm5714_irq_init ∉ new_events w res ∧
      (w.held = [] → res.w.held = [] ∨ res.w.held = [Resource.irq_ws]) := by
  unfold reaches_identity at h
  by_cases hk : env.kzalloc_ok = true
  · by_cases hof : env.of_node = true
    · by_cases hd : env.devm_kzalloc_ok = true
      · have hdesc : env.irq_alloc_descs.val < 0 := by
          by_contra hc
          exact h ⟨hk, by simp [hof, hd], not_lt.mp hc⟩
        have he : sm5714_i2c_probe regs env w = some (err (-EINVAL) ⟨0, 0⟩
            (call Call.irq_alloc_descs
              (acquire Resource.irq_ws Call.wakeup_source_register
                (call Call.devm_kzalloc (acquire Resource.sm5714_dev Call.kzalloc w))))) := by
          simp [sm5714_i2c_probe, hk, hof, hd, of_sm5714_dt, hdesc]
        refine ⟨_, he, ?_⟩
        simp [new_events, err, release, acquire, call, emit, xfers, EINVAL]
        intro hw
        simp [hw]
      · have he : sm5714_i2c_probe regs env w = some (err (-ENOMEM) ⟨0, 0⟩
            (call Call.devm_kzalloc (acquire Resource.sm5714_dev Call.kzalloc w))) := by
          simp [sm5714_i2c_probe, hk, hof, hd]
        refine ⟨_, he, ?_⟩
        simp [new_events, err, release, acquire, call, emit, xfers, ENOMEM]
        intro hw
        simp [hw]
    · by_cases hp : env.platform_data = true
      · have hdesc : env.irq_alloc_descs.val < 0 := by
          by_contra hc
          exact h ⟨hk, by simp [hof, hp], not_lt.mp hc⟩
        have he : sm5714_i2c_probe regs env w = some (err (-EINVAL) ⟨0, 0⟩
            (call Call.irq_alloc_descs
              (acquire Resource.irq_ws Call.wakeup_source_register
                (acquire Resource.sm5714_dev Call.kzalloc w)))) := by
          simp [sm5714_i2c_probe, hk, hof, hp, hdesc]
        refine ⟨_, he, ?_⟩
        simp [new_events, err, release, acquire, call, emit, xfers, EINVAL, hof]
        intro hw
        simp [hw]
      · have he : sm5714_i2c_probe regs env w = some (err (-EINVAL) ⟨0, 0⟩
            (acquire Resource.irq_ws Call.wakeup_source_register
              (acquire Resource.sm5714_dev Call.kzalloc w))) := by
          simp [sm5714_i2c_probe, hk, hof, hp]
        refine ⟨_, he, ?_⟩
        simp [new_events, err, release, acquire, call, emit, xfers, EINVAL]
        intro hw
        simp [hw]
  · have he : sm5714_i2c_probe regs env w =
        some ⟨-ENOMEM, ⟨0, 0⟩, call Call.kzalloc w⟩ := by
      simp [sm5714_i2c_probe, hk]
    refine ⟨_, he, ?_⟩
    simp [new_events, call, emit, xfers, ENOMEM]
    exact fun hw => Or.inl hw

/-- C8: in every run of probe the bus transactions go first to the primary handle, then to
the fuel-gauge handle, then to the mux handle; a transaction to the fuel-gauge or mux handle,
or the creation of either handle, occurs only if the primary read succeeded with
`byte & 0x7 = 1`, and a transaction to the mux handle, or its creation, only if moreover the
fuel-gauge word read returned a value in `0..0xFF`. -/
theorem probe_identity_order (regs : Regs) (env : ProbeEnv) (w : World) :
    ∃ res a b c, sm5714_i2c_probe regs env w = some res ∧
      (xfers (new_events w res)).map (fun t => t.1) =
        List.replicate a Client.charger ++ List.replicate b Client.fuelgauge ++
          List.replicate c Client.muic ∧
      ((0 < b ∨ 0 < c ∨ Event.call (Call.i2c_new_dummy Client.fuelgauge) ∈ new_events w res ∨
          Event.call (Call.i2c_new_dummy Client.muic) ∈ new_events w res) →
        0 ≤ primary_ret w ∧ primary_byte w &&& 7 = 1) ∧
      ((0 < c ∨ Event.call (Call.i2c_new_dummy Client.muic) ∈ new_events w res) →
        0 ≤ fg_ret w ∧ fg_ret w ≤ 255) := by
  by_cases hreach : reaches_identity env
  · obtain ⟨hb, hi, hl, ht, -, -, -⟩ := pre_identity_facts env w
    rw [probe_eq_primary regs env w hreach, probe_primary_eq _ _ _ hl, hb, hi]
    simp only [primary_ret, primary_byte, fg_ret]
    by_cases h1 : 0 ≤ retry_ret w.bus w.issued ∧
        (retry_ret w.bus w.issued % 256).toNat &&& 7 = 1
    · rw [if_pos h1, probe_fuelgauge_eq _ _ _ _ _ (after_retry_locked _ _ _)]
      simp only [after_retry_bus, after_retry_issued, hb, hi]
      by_cases h2 : 0 ≤ retry_ret w.bus (w.issued + retry_count w.bus w.issued) ∧
          retry_ret w.bus (w.issued + retry_count w.bus w.issued) ≤ 255
      · rw [if_pos h2, probe_muic_eq _ _ _ _ _ (after_retry_locked _ _ _)]
        split_ifs with h3
        · obtain ⟨-, htr, -⟩ := probe_finish_facts env
            ⟨(retry_ret w.bus w.issued % 256).toNat &&& 7,
              ((retry_ret w.bus w.issued % 256).toNat >>> 3) &&& 31⟩
            (after_retry Client.muic (Xfer.read_byte_data regs.muic_deviceid)
              (acquire Resource.muic (Call.i2c_new_dummy Client.muic)
                (after_retry Client.fuelgauge (Xfer.read_word_data regs.fg_device_id)
                  (acquire Resource.fuelgauge (Call.i2c_new_dummy Client.fuelgauge)
                    (after_retry Client.charger (Xfer.read_byte_data regs.chg_deviceid)
                      (pre_identity env w))))))
          refine ⟨_, retry_count w.bus w.issued,
            retry_count w.bus (w.issued + retry_count w.bus w.issued),
            retry_count w.bus (w.issued + retry_count w.bus w.issued +
              retry_count w.bus (w.issued + retry_count w.bus w.issued)),
            rfl, ?_, fun _ => h1, fun _ => h2⟩
          simp only [new_events, htr]
          simp [after_retry_trace, acquire, emit, ht, hb, hi, after_retry_bus, after_retry_issued, xfers_append, xfers,
            xfers_pre_calls, xfers_telemetry_events, xfers_finish_events,
            clients_retry_events]
        · refine ⟨_, retry_count w.bus w.issued,
            retry_count w.bus (w.issued + retry_count w.bus w.issued),
            retry_count w.bus (w.issued + retry_count w.bus w.issued +
              retry_count w.bus (w.issued + retry_count w.bus w.issued)),
            rfl, ?_, fun _ => h1, fun _ => h2⟩
          simp [new_events, err_w_lock, err, release, after_retry_trace, acquire, emit, ht,
            hb, hi, after_retry_bus, after_retry_issued, xfers_append, xfers, xfers_pre_calls, xfers_telemetry_events,
            clients_retry_events]
      · rw [if_neg h2]
        refine ⟨_, retry_count w.bus w.issued,
          retry_count w.bus (w.issued + retry_count w.bus w.issued), 0,
          rfl, ?_, fun _ => h1, ?_⟩
        · simp [new_events, err_w_lock, err, release, after_retry_trace, acquire, emit, ht,
            hb, hi, after_retry_bus, after_retry_issued, xfers_append, xfers, xfers_pre_calls, xfers_telemetry_events,
            clients_retry_events]
        · simp [new_events, err_w_lock, err, release, after_retry_trace, acquire, emit, ht,
            call_not_mem_retry_events, call_not_mem_telemetry_events,
            new_dummy_not_mem_pre_calls]
    · rw [if_neg h1]
      refine ⟨_, retry_count w.bus w.issued, 0, 0, rfl, ?_, ?_, ?_⟩
      · simp [new_events, err_w_lock, err, release, after_retry_trace, emit, ht,
          hb, hi, after_retry_bus, after_retry_issued, xfers_append, xfers, xfers_pre_calls, xfers_telemetry_events,
          clients_retry_events]
      · simp [new_events, err_w_lock, err, release, after_retry_trace, emit, ht,
          call_not_mem_retry_events, call_not_mem_telemetry_events,
          new_dummy_not_mem_pre_calls]
      · simp [new_events, err_w_lock, err, release, after_retry_trace, emit, ht,
          call_not_mem_retry_events, call_not_mem_telemetry_events,
          new_dummy_not_mem_pre_calls]
  · obtain ⟨res, he, hx, hn, -, -, -⟩ := probe_not_reaching regs env w hreach
    refine ⟨res, 0, 0, 0, he, by simp [hx], ?_, ?_⟩
    · intro h
      rcases h with h | h | h | h
      · omega
      · omega
      · exact absurd h (hn _)
      · exact absurd h (hn _)
    · intro h
      rcases h with h | h
      · omega
      · exact absurd h (hn _)

/-! ## Unwinding on failure -/

/-- C7, refuted as stated: with primary byte `0x09`, fuel-gauge word `0x42`, mux byte `0x01`
and a failing `sm5714_irq_init`, probe fails and returns with the wake source and the
reserved interrupt descriptor range still held. -/
theorem probe_irq_init_failure_keeps_descs :
    (sm5714_i2c_probe regs_sample env_irq_fail
        (world_of [⟨9, by decide⟩, ⟨66, by decide⟩, ⟨1, by decide⟩])).map
      (fun r => (decide (r.ret < 0), r.w.held)) =
    some (true, [Resource.irq_ws, Resource.irq_descs]) := by
  decide

/-- When the fuel-gauge check fails (word `0x0100`), probe returns `-ENODEV` through
`err_w_lock`, which does not unregister the fuel-gauge handle. -/
theorem probe_fg_failure_keeps_handle :
    (sm5714_i2c_probe regs_sample env_ok
        (world_of [⟨9, by decide⟩, ⟨256, by decide⟩])).map
      (fun r => (r.ret, r.w.held)) =
    some (-19, [Resource.irq_ws, Resource.irq_descs, Resource.fuelgauge]) := by
  decide

theorem irq_init_not_mem_pre_calls (env : ProbeEnv) :
    Event.call Call.sm5714_irq_init ∉ pre_calls env := by
  unfold pre_calls
  split_ifs <;> simp

/-- C7, amended: if probe starts with nothing held and fails, then on return the context,
the lock, the interrupt subsystem and the published devices are not held; and if the failure
is that of interrupt initialisation or of publication, exactly the wake source and the
reserved descriptor range remain held, so both secondary handles have been released. -/
theorem probe_failure_unwind (regs : Regs) (env : ProbeEnv) (w : World) (hw : w.held = []) :
    ∃ res, sm5714_i2c_probe regs env w = some res ∧
      (res.ret < 0 →
        Resource.sm5714_dev ∉ res.w.held ∧ Resource.i2c_lock ∉ res.w.held ∧
        Resource.irq_chip ∉ res.w.held ∧ Resource.mfd_devs ∉ res.w.held) ∧
      (res.ret < 0 → Event.call Call.sm5714_irq_init ∈ new_events w res →
        res.w.held = [Resource.irq_ws, Resource.irq_descs]) := by
  by_cases hreach : reaches_identity env
  · obtain ⟨hb, hi, hl, ht, hh, -, -⟩ := pre_identity_facts env w
    rw [hw] at hh
    rw [probe_eq_primary regs env w hreach, probe_primary_eq _ _ _ hl, hb, hi]
    by_cases h1 : 0 ≤ retry_ret w.bus w.issued ∧
        (retry_ret w.bus w.issued % 256).toNat &&& 7 = 1
    · rw [if_pos h1, probe_fuelgauge_eq _ _ _ _ _ (after_retry_locked _ _ _)]
      split_ifs with h2
      · rw [probe_muic_eq _ _ _ _ _ (after_retry_locked _ _ _)]
        split_ifs with h3
        · refine ⟨_, rfl, ?_, ?_⟩
          · unfold probe_finish
            split_ifs with h4 h5
            · intro _
              simp [err_irq_init, err_w_lock, err, release, acquire, call, emit,
                after_retry_held, hh]
            · intro _
              simp [err_mfd, err_irq_init, err_w_lock, err, release, acquire, call, emit,
                after_retry_held, hh]
            · intro h
              exact absurd h (not_lt.mpr (not_lt.mp h5))
          · unfold probe_finish
            split_ifs with h4 h5
            · intro _ _
              simp [err_irq_init, err_w_lock, err, release, acquire, call, emit,
                after_retry_held, hh]
            · intro _ _
              simp [err_mfd, err_irq_init, err_w_lock, err, release, acquire, call, emit,
                after_retry_held, hh]
            · intro h
              exact absurd h (not_lt.mpr (not_lt.mp h5))
        · refine ⟨_, rfl, ?_, ?_⟩
          · intro _
            simp [err_w_lock, err, release, acquire, call, emit, after_retry_held, hh]
          · intro _ h
            exfalso
            revert h
            simp [new_events, err_w_lock, err, release, after_retry_trace, acquire, emit, ht,
              call_not_mem_retry_events, call_not_mem_telemetry_events,
              irq_init_not_mem_pre_calls]
      · refine ⟨_, rfl, ?_, ?_⟩
        · intro _
          simp [err_w_lock, err, release, acquire, call, emit, after_retry_held, hh]
        · intro _ h
          exfalso
          revert h
          simp [new_events, err_w_lock, err, release, after_retry_trace, acquire, emit, ht,
            call_not_mem_retry_events, call_not_mem_telemetry_events,
            irq_init_not_mem_pre_calls]
    · rw [if_neg h1]
      refine ⟨_, rfl, ?_, ?_⟩
      · intro _
        simp [err_w_lock, err, release, acquire, call, emit, after_retry_held, hh]
      · intro _ _
        simp [err_w_lock, err, release, acquire, call, emit, after_retry_held, hh]
  · obtain ⟨res, he, -, -, -, hn, hheld⟩ := probe_not_reaching regs env w hreach
    refine ⟨res, he, fun _ => ?_, fun _ h => absurd h hn⟩
    rcases hheld hw with h | h <;> simp [h]

/-- Witness of C7 (amended): a probe that fails at interrupt initialisation returns with
exactly the wake source and the descriptor range held. -/
theorem probe_failure_unwind_witness :
    (world_of [⟨9, by decide⟩, ⟨66, by decide⟩, ⟨1, by decide⟩]).held = [] ∧
      ∃ res, sm5714_i2c_probe regs_sample env_irq_fail
          (world_of [⟨9, by decide⟩, ⟨66, by decide⟩, ⟨1, by decide⟩]) = some res ∧
        res.ret < 0 ∧ Resource.sm5714_dev ∉ res.w.held ∧ Resource.i2c_lock ∉ res.w.held ∧
        res.w.held = [Resource.irq_ws, Resource.irq_descs] := by
  obtain ⟨res, he, h1, h2⟩ :=
    probe_failure_unwind regs_sample env_irq_fail
      (world_of [⟨9, by decide⟩, ⟨66, by decide⟩, ⟨1, by decide⟩]) rfl
  have hd : (sm5714_i2c_probe regs_sample env_irq_fail
      (world_of [⟨9, by decide⟩, ⟨66, by decide⟩, ⟨1, by decide⟩])).map
        (fun r => (decide (r.ret < 0),
          decide (Event.call Call.sm5714_irq_init ∈
            new_events (world_of [⟨9, by decide⟩, ⟨66, by decide⟩, ⟨1, by decide⟩]) r))) =
      some (true, true) := by decide
  rw [he] at hd
  simp only [Option.map_some', Option.some.injEq, Prod.mk.injEq, decide_eq_true_eq] at hd
  exact ⟨rfl, res, he, hd.1, (h1 hd.1).1, (h1 hd.1).2.1, h2 hd.1 hd.2⟩

/-- The end-to-end scenario with only the mux byte changed to `0x02`: probe returns `-ENODEV`
and `mfd_add_devices` is not among the calls made. -/
theorem probe_mux_mismatch_scenario :
    (sm5714_i2c_probe regs_sample env_ok
        (world_of [⟨9, by decide⟩, ⟨66, by decide⟩, ⟨2, by decide⟩])).map
      (fun r => (r.ret, decide (Event.call Call.mfd_add_devices ∈ r.w.trace))) =
    some (-19, false) := by
  decide

end SM5714
